import Mathlib

/-!
Verification of the PBIR (Power BI enhanced report format) document
normalization engine of this repository against its specification.

The repository contains four JavaScript parser classes:
  - PBIRReportGenerator   (the CLI clean-report generator)
  - PBIRParserEnhanced    (schema-aware browser parser)
  - PBIRParser            (browser parser)
  - EnhancedPBIRParser    (CLI parser with schema validation)

Each class is shallowly embedded below in a namespace of the same name.
JSON documents are modelled by the mutual inductive `Json`.  Modelling
conventions for JavaScript semantics (documented once here):

  - `undefined` and `null` are distinct values (`Json.undefined`, `Json.null`).
  - Property access `a.b` is `Json.getF`; it returns `Json.undefined` when the
    key is absent or the receiver is not an object.  For a `null`/`undefined`
    receiver real JavaScript throws a TypeError; since every access on such
    receivers in this codebase is either guarded by a truthiness test or
    written with optional chaining, the embedding collapses that case to
    `Json.undefined` as well.  For primitive receivers (numbers, strings,
    booleans) JavaScript yields `undefined` without throwing, which matches
    the embedding exactly.
  - String operations (`trim`, `replace`, `substring`) applied to a value
    that is not a string throw in JavaScript; the embedding treats such a
    value as failing the surrounding truthiness/shape test.
  - Objects produced by `JSON.parse` never contain duplicate keys, so
    `Json.obj` values are read with first-match lookup and updated with
    replace-all semantics; both agree on duplicate-free objects.
  - JavaScript `Map` objects are modelled as association lists in insertion
    order; `Map.set` (`mapSet`) replaces an existing key in place or appends.
-/

mutual

inductive Json where
  | undefined : Json
  | null : Json
  | bool (b : Bool) : Json
  | num (n : Int) : Json
  | str (s : String) : Json
  | arr (elems : JArr) : Json
  | obj (fields : JObj) : Json
  deriving DecidableEq, Repr

inductive JArr where
  | nil : JArr
  | cons (hd : Json) (tl : JArr) : JArr
  deriving DecidableEq, Repr

inductive JObj where
  | nil : JObj
  | cons (key : String) (val : Json) (tl : JObj) : JObj
  deriving DecidableEq, Repr

end

/-- Build a `JArr` from a Lean list (used to write JSON literals). -/
def jarr : List Json → JArr
  | [] => .nil
  | x :: xs => .cons x (jarr xs)

/-- Build a `JObj` from a Lean list of key/value pairs. -/
def jobj : List (String × Json) → JObj
  | [] => .nil
  | (k, v) :: xs => .cons k v (jobj xs)

/-- The elements of a JSON array as a Lean list. -/
def JArr.toList : JArr → List Json
  | .nil => []
  | .cons h t => h :: t.toList

/-- The fields of a JSON object as a Lean list of pairs. -/
def JObj.toList : JObj → List (String × Json)
  | .nil => []
  | .cons k v t => (k, v) :: t.toList

/-- First-match field lookup; `Json.undefined` when the key is absent. -/
def JObj.lookupF : JObj → String → Json
  | .nil, _ => .undefined
  | .cons k v t, key => if k = key then v else t.lookupF key

/-- Whether an object has a field with the given key. -/
def JObj.hasKey : JObj → String → Bool
  | .nil, _ => false
  | .cons k _ t, key => k = key || t.hasKey key

/-- Replace every field with the given key (for duplicate-free objects:
the single field) by the new value, in place. -/
def JObj.replaceKey (key : String) (v : Json) : JObj → JObj
  | .nil => .nil
  | .cons k w t =>
      if k = key then .cons k v (t.replaceKey key v) else .cons k w (t.replaceKey key v)

/-- Append a field at the end of an object. -/
def JObj.appendKey (key : String) (v : Json) : JObj → JObj
  | .nil => .cons key v .nil
  | .cons k w t => .cons k w (t.appendKey key v)

/-- JavaScript property assignment `o[k] = v` on an object: replace the
existing key in place or append the key at the end. -/
def JObj.setF (o : JObj) (key : String) (v : Json) : JObj :=
  if o.hasKey key then o.replaceKey key v else o.appendKey key v

/-- List of keys of an object in order. -/
def JObj.keys : JObj → List String
  | .nil => []
  | .cons k _ t => k :: t.keys

/-- JavaScript property access `j.k` / `j?.k` (see conventions above). -/
def Json.getF : Json → String → Json
  | .obj fs, k => fs.lookupF k
  | _, _ => .undefined

/-- JavaScript truthiness: `undefined`, `null`, `false`, `0` and the empty
string are falsy; every other value (including empty arrays and objects)
is truthy. -/
def truthy : Json → Bool
  | .undefined => false
  | .null => false
  | .bool b => b
  | .num n => n != 0
  | .str s => s != ""
  | .arr _ => true
  | .obj _ => true

/-- JavaScript `a || b`. -/
def jsOr (a b : Json) : Json := if truthy a then a else b

/-- JavaScript indexing `j[0]`: array element 0, object property "0", or
the first character of a string; `undefined` otherwise. -/
def Json.idx0 : Json → Json
  | .arr (.cons x _) => x
  | .arr .nil => .undefined
  | .obj fs => fs.lookupF "0"
  | .str s =>
      match s.data with
      | [] => .undefined
      | c :: _ => .str (String.mk [c])
  | _ => .undefined

/-- JavaScript `.length` as a number when defined: array length, string
length, or the `length` property of a plain object. -/
def Json.lengthF : Json → Json
  | .arr xs => .num xs.toList.length
  | .str s => .num s.length
  | .obj fs => fs.lookupF "length"
  | _ => .undefined

/-- Whether a `.length > 0` style numeric comparison succeeds. -/
def jsLengthPos (j : Json) : Bool :=
  match j.lengthF with
  | .num n => 0 < n
  | _ => false

/-- `Array.isArray`. -/
def Json.isArr : Json → Bool
  | .arr _ => true
  | _ => false

/-- The element list of an array; `[]` for any non-array (JavaScript would
throw on `.map`/`.forEach` for non-arrays, which no claim exercises). -/
def Json.asList : Json → List Json
  | .arr xs => xs.toList
  | _ => []

/-- The field list of the value for object spread `{...j}`; non-objects
spread to nothing (the array-spread corner of JavaScript is out of the
modelled scope). -/
def Json.spreadFields : Json → JObj
  | .obj fs => fs
  | _ => .nil

/-- Object spread update `{...base, key: v}`. -/
def spreadSet (base : Json) (key : String) (v : Json) : Json :=
  .obj (base.spreadFields.setF key v)

/-! Size measure used as recursion fuel for the one function that recurses
through field lookups (`formatFilterObject`). -/

mutual

def Json.size : Json → Nat
  | .undefined | .null | .bool _ | .num _ | .str _ => 1
  | .arr xs => 1 + xs.sizeA
  | .obj fs => 1 + fs.sizeO

def JArr.sizeA : JArr → Nat
  | .nil => 0
  | .cons h t => 1 + h.size + t.sizeA

def JObj.sizeO : JObj → Nat
  | .nil => 0
  | .cons _ v t => 1 + v.size + t.sizeO

end

/-! JavaScript string conversion as used by template literals and
`String(x)`: arrays stringify as their comma-joined elements with
`null`/`undefined` elements blank, plain objects as `[object Object]`. -/

mutual

def jsToString : Json → String
  | .undefined => "undefined"
  | .null => "null"
  | .bool b => if b then "true" else "false"
  | .num n => toString n
  | .str s => s
  | .arr xs => xs.joinedA
  | .obj _ => "[object Object]"

def JArr.joinedA : JArr → String
  | .nil => ""
  | .cons .undefined .nil => ""
  | .cons .null .nil => ""
  | .cons h .nil => jsToString h
  | .cons .undefined t => "," ++ t.joinedA
  | .cons .null t => "," ++ t.joinedA
  | .cons h t => jsToString h ++ "," ++ t.joinedA

end

/-- The element conversion of `Array.prototype.join`: `null`/`undefined`
elements become the empty string. -/
def jsElemString : Json → String
  | .undefined => ""
  | .null => ""
  | j => jsToString j

/-- `Array.prototype.join(sep)` over already-computed element values
(`null`/`undefined` become the empty string). -/
def jsJoin (sep : String) : List Json → String
  | [] => ""
  | [x] => jsElemString x
  | x :: xs => jsElemString x ++ sep ++ jsJoin sep xs

/-- Escape one character for JSON string output. -/
def jsonEscapeChar (c : Char) : String :=
  if c = Char.ofNat 34 then "\\" ++ String.mk [Char.ofNat 34]
  else if c = Char.ofNat 92 then "\\\\"
  else if c = Char.ofNat 10 then "\\n"
  else if c = Char.ofNat 9 then "\\t"
  else if c = Char.ofNat 13 then "\\r"
  else String.mk [c]

/-- Quote a string as a JSON string literal. -/
def jsonQuote (s : String) : String :=
  String.mk [Char.ofNat 34] ++ String.join (s.data.map jsonEscapeChar) ++ String.mk [Char.ofNat 34]

/-! `JSON.stringify` (compact form; the one pretty-printed call site in the
source differs only in layout, which no claim observes).  `stringifyCore`
returns `none` exactly when JavaScript returns `undefined` (i.e., on
`undefined` input). -/

mutual

def stringifyCore : Json → Option String
  | .undefined => none
  | .null => some "null"
  | .bool b => some (if b then "true" else "false")
  | .num n => some (toString n)
  | .str s => some (jsonQuote s)
  | .arr xs => some ("[" ++ xs.stringifyA ++ "]")
  | .obj fs => some ("\x7b" ++ fs.stringifyO ++ "\x7d")

def JArr.stringifyA : JArr → String
  | .nil => ""
  | .cons h .nil => (stringifyCore h).getD "null"
  | .cons h t => (stringifyCore h).getD "null" ++ "," ++ t.stringifyA

def JObj.stringifyO : JObj → String
  | .nil => ""
  | .cons k v .nil =>
      match stringifyCore v with
      | none => ""
      | some sv => jsonQuote k ++ ":" ++ sv
  | .cons k v t =>
      match stringifyCore v with
      | none => t.stringifyO
      | some sv =>
          match t.stringifyO with
          | "" => jsonQuote k ++ ":" ++ sv
          | rest => jsonQuote k ++ ":" ++ sv ++ "," ++ rest

end

/-- `JSON.stringify` with the result re-embedded as a JSON value. -/
def jsonStringifyJ (j : Json) : Json :=
  match stringifyCore j with
  | some s => .str s
  | none => .undefined

/-- `JSON.stringify` coerced to a string (call sites that always receive a
defined value). -/
def stringifyStr (j : Json) : String :=
  (stringifyCore j).getD "undefined"

/-- JavaScript whitespace for `trim` (the common ASCII subset; the claims
exercise no exotic whitespace). -/
def isWsChar (c : Char) : Bool :=
  c = ' ' || c = Char.ofNat 9 || c = Char.ofNat 10 || c = Char.ofNat 13

/-- `String.prototype.trim`. -/
def jsTrim (s : String) : String :=
  String.mk (((s.data.dropWhile isWsChar).reverse.dropWhile isWsChar).reverse)

/-- The apostrophe character. -/
def aposC : Char := Char.ofNat 39

/-- The quote-stripping regex replace used for titles: removes one leading
and one trailing apostrophe. -/
def stripApos (s : String) : String :=
  let d1 : List Char :=
    match s.data with
    | c :: rest => if c = aposC then rest else c :: rest
    | [] => []
  let d2 : List Char :=
    match d1.reverse with
    | c :: rest => if c = aposC then rest.reverse else d1
    | [] => []
  String.mk d2

/-- Substring containment, `String.prototype.includes`. -/
def strIncludes (s sub : String) : Bool :=
  go s.data
where
  go : List Char → Bool
    | [] => sub.data.isPrefixOf []
    | c :: rest => sub.data.isPrefixOf (c :: rest) || go rest

/-- `String.prototype.endsWith`. -/
def sEndsWith (s suffix : String) : Bool :=
  suffix.data.isSuffixOf s.data

/-- `String.prototype.startsWith`. -/
def sStartsWith (s p : String) : Bool :=
  p.data.isPrefixOf s.data

/-- `String.prototype.replace(pat, rep)` with a plain-string pattern:
replaces the first occurrence only. -/
def replaceOnce (s pat rep : String) : String :=
  String.mk (go s.data)
where
  go : List Char → List Char
    | [] => if pat.data.isPrefixOf ([] : List Char) then rep.data else []
    | c :: rest =>
        if pat.data.isPrefixOf (c :: rest) then
          rep.data ++ (c :: rest).drop pat.data.length
        else c :: go rest

/-- `String.prototype.toLowerCase` (ASCII). -/
def jsToLower (s : String) : String :=
  String.mk (s.data.map Char.toLower)

/-- `String.prototype.split(sep)` for a single-character separator. -/
def splitOnChar (sep : Char) (s : String) : List String :=
  (go s.data).map String.mk
where
  go : List Char → List (List Char)
    | [] => [[]]
    | c :: rest =>
        match go rest with
        | [] => [[c]]
        | g :: gs => if c = sep then [] :: g :: gs else (c :: g) :: gs

/-- `Map.prototype.set` on an insertion-ordered association list. -/
def mapSet {α : Type} (m : List (String × α)) (k : String) (v : α) : List (String × α) :=
  if m.any (fun p => p.1 = k) then
    m.map (fun p => if p.1 = k then (k, v) else p)
  else m ++ [(k, v)]

/-- First-match lookup on an association list (JavaScript `Map.get`;
`mapSet` keeps keys unique so first match is the only match). -/
def mapGet {α : Type} (m : List (String × α)) (k : String) : Option α :=
  match m.find? (fun p => p.1 = k) with
  | some p => some p.2
  | none => none

/-- Whether an association list has an entry for a key. -/
def mapHasKey {α : Type} (m : List (String × α)) (k : String) : Bool :=
  m.any (fun p => p.1 = k)

/-- A source file handed to a parser: its (relative) path and its parsed
JSON content, `none` when the raw text fails `JSON.parse`. -/
structure GFile where
  relativePath : String
  content : Option Json
  deriving DecidableEq, Repr

/-- `parseJsonFile`: the parsed document, or `null` on a parse error. -/
def jfParse (content : Option Json) : Json :=
  content.getD .null

/-- `findFile`: first file whose path ends with the given suffix. -/
def findFileG (files : List GFile) (relativePath : String) : Option GFile :=
  files.find? (fun f => sEndsWith f.relativePath relativePath)

/-! Path-derived identifier extraction.  The four parser classes contain
textually identical `extractPageName` / `extractVisualName` /
`extractBookmarkName` methods, embedded once here.  Each models a regex
of the form `/\/pages\/([^\/]+)\/page\.json$/`: the path must end with
the fixed suffix, preceded by a non-empty slash-free captured segment,
preceded by the fixed directory component. -/

/-- Strip a suffix from a character list if present. -/
def stripSuffixChars (l suffix : List Char) : Option (List Char) :=
  if suffix.isSuffixOf l then some (l.take (l.length - suffix.length)) else none

/-- Split off the segment after the last slash: returns the segment and
the part before it (which, when non-empty, ends with the slash). -/
def lastSegSplit (l : List Char) : List Char × List Char :=
  let rev := l.reverse
  let segRev := rev.takeWhile (fun c => c ≠ '/')
  (segRev.reverse, (rev.drop segRev.length).reverse)

/-- The capture of `/\/pages\/([^\/]+)\/page\.json$/`, if the path matches. -/
def pageNameCapture (path : String) : Option String :=
  match stripSuffixChars path.data "/page.json".data with
  | none => none
  | some rest =>
      let p := lastSegSplit rest
      if p.1 = [] then none
      else if "/pages/".data.isSuffixOf p.2 then some (String.mk p.1)
      else none

/-- The capture of `/\/visuals\/([^\/]+)\/visual\.json$/`. -/
def visualNameCapture (path : String) : Option String :=
  match stripSuffixChars path.data "/visual.json".data with
  | none => none
  | some rest =>
      let p := lastSegSplit rest
      if p.1 = [] then none
      else if "/visuals/".data.isSuffixOf p.2 then some (String.mk p.1)
      else none

/-- The capture of `/\/([^\/]+)\.bookmark\.json$/`. -/
def bookmarkNameCapture (path : String) : Option String :=
  match stripSuffixChars path.data ".bookmark.json".data with
  | none => none
  | some rest =>
      let p := lastSegSplit rest
      if p.1 = [] then none
      else if p.2 = [] then none
      else some (String.mk p.1)

/-- `extractPageName`: the captured page id, or the sentinel `"unknown"`.
Textually identical in all four parser classes. -/
def extractPageName (path : String) : String :=
  (pageNameCapture path).getD "unknown"

/-- `extractVisualName`: the captured visual id, or `"unknown"`. -/
def extractVisualName (path : String) : String :=
  (visualNameCapture path).getD "unknown"

/-- `extractBookmarkName`: the captured bookmark id, or `"unknown"`. -/
def extractBookmarkName (path : String) : String :=
  (bookmarkNameCapture path).getD "unknown"

namespace PBIRReportGenerator

/-! Embedding of the `PBIRReportGenerator` class (the clean-report CLI
generator; second document of `src/styles.css`). -/

/-- The closed visual-type mapping table of `getVisualType`. -/
def typeMapping : List (String × String) :=
  [("columnChart", "Column Chart"),
   ("barChart", "Bar Chart"),
   ("lineChart", "Line Chart"),
   ("pieChart", "Pie Chart"),
   ("card", "Card"),
   ("multiRowCard", "Multi-row Card"),
   ("tableEx", "Table"),
   ("matrix", "Matrix"),
   ("slicer", "Slicer"),
   ("textbox", "Text Box"),
   ("image", "Image"),
   ("basicShape", "Shape"),
   ("actionButton", "Button"),
   ("pivotTable", "Pivot Table"),
   ("qnaVisual", "Q&A Visual"),
   ("keyDriversVisual", "Key Drivers"),
   ("decompositionTreeVisual", "Decomposition Tree")]

/-- The canonicalization step of `getVisualType` applied to the raw
visual-type string: custom-visual detection (`PBI_CV_` prefix, `CV_`
infix, or length strictly greater than 30), then the mapping table,
unmapped strings passing through unchanged. -/
def getVisualTypeRaw (visualType : String) : String :=
  if sStartsWith visualType "PBI_CV_" || strIncludes visualType "CV_"
      || 30 < visualType.length then
    "Custom Visual"
  else
    (typeMapping.lookup visualType).getD visualType

/-- `getVisualType`: raw type from `visual.visualType` then
`visual.singleVisual.visualType` (initialized to `"unknown"`), then
canonicalized.  A truthy non-string raw type would crash the JavaScript
string methods; it is modelled as the `"unknown"` initial value. -/
def getVisualType (visualData : Json) : String :=
  let v := visualData.getF "visual"
  let vt : Json :=
    if truthy v && truthy (v.getF "visualType") then v.getF "visualType"
    else if truthy v && truthy (v.getF "singleVisual")
        && truthy ((v.getF "singleVisual").getF "visualType") then
      (v.getF "singleVisual").getF "visualType"
    else .str "unknown"
  match vt with
  | .str s => getVisualTypeRaw s
  | _ => getVisualTypeRaw "unknown"

/-- First block of `getVisualDisplayName`: the visual-container-level
title override.  Resolves via `visualContainerObjects.title[0].properties
.text.expr.Literal.Value`, strips surrounding apostrophes, trims, and
rejects the empty string and the placeholder `"Title"`. -/
def containerTitleResolve (visualData : Json) : Option String :=
  let containerObjects :=
    jsOr ((visualData.getF "visual").getF "visualContainerObjects")
      (visualData.getF "visualContainerObjects")
  if truthy containerObjects && truthy (containerObjects.getF "title") then
    let titleConfig := (containerObjects.getF "title").idx0
    if truthy titleConfig && truthy (titleConfig.getF "properties")
        && truthy ((titleConfig.getF "properties").getF "text") then
      let textExpr := ((titleConfig.getF "properties").getF "text").getF "expr"
      if truthy textExpr && truthy (textExpr.getF "Literal")
          && truthy ((textExpr.getF "Literal").getF "Value") then
        match (textExpr.getF "Literal").getF "Value" with
        | .str s =>
            let title := jsTrim (stripApos s)
            if title ≠ "" && title ≠ "Title" then some title else none
        | _ => none
      else none
    else none
  else none

/-- Second block of `getVisualDisplayName`: the legacy
`visual.singleVisual.objects.title[0].properties.text` title, read first
through the `literal.value` shape (no placeholder rejection) and then
through the `expr.Literal` shape (with apostrophe stripping and
placeholder rejection). -/
def svObjectsTitleResolve (visualData : Json) : Option String :=
  let v := visualData.getF "visual"
  if truthy v && truthy (v.getF "singleVisual")
      && truthy ((v.getF "singleVisual").getF "objects") then
    let objects := (v.getF "singleVisual").getF "objects"
    if truthy (objects.getF "title") && truthy (objects.getF "title").idx0
        && truthy ((objects.getF "title").idx0.getF "properties") then
      let titleProp := ((objects.getF "title").idx0.getF "properties").getF "text"
      let viaLiteral : Option String :=
        if truthy titleProp && truthy (titleProp.getF "literal")
            && truthy ((titleProp.getF "literal").getF "value") then
          match (titleProp.getF "literal").getF "value" with
          | .str s =>
              let title := jsTrim s
              if title ≠ "" then some title else none
          | _ => none
        else none
      match viaLiteral with
      | some t => some t
      | none =>
          if truthy titleProp && truthy (titleProp.getF "expr")
              && truthy ((titleProp.getF "expr").getF "Literal") then
            match ((titleProp.getF "expr").getF "Literal").getF "Value" with
            | .str s =>
                let title := jsTrim (stripApos s)
                if title ≠ "" && title ≠ "Title" then some title else none
            | _ => none
          else none
    else none
  else none

/-- Third block of `getVisualDisplayName`: for text boxes, the first text
run of the first paragraph, accepted only when non-blank and shorter than
50 characters. -/
def textboxTitleResolve (visualData : Json) : Option String :=
  let v := visualData.getF "visual"
  if truthy v && truthy (v.getF "singleVisual")
      && truthy ((v.getF "singleVisual").getF "objects") then
    let objects := (v.getF "singleVisual").getF "objects"
    if truthy (objects.getF "general") && truthy (objects.getF "general").idx0
        && truthy ((objects.getF "general").idx0.getF "properties") then
      let paragraphs := ((objects.getF "general").idx0.getF "properties").getF "paragraphs"
      if truthy paragraphs && jsLengthPos paragraphs then
        let firstParagraph := paragraphs.idx0
        if truthy (firstParagraph.getF "textRuns")
            && jsLengthPos (firstParagraph.getF "textRuns") then
          match (firstParagraph.getF "textRuns").idx0.getF "value" with
          | .str s =>
              if s ≠ "" && jsTrim s ≠ "" && s.length < 50 then
                some (jsTrim s)
              else none
          | _ => none
        else none
      else none
    else none
  else none

/-- Fourth block of `getVisualDisplayName`: the direct
`visual.objects.title[0].properties.text` title (`literal?.value` shape
first, then the `expr.Literal` shape). -/
def directObjectsTitleResolve (visualData : Json) : Option String :=
  let v := visualData.getF "visual"
  if truthy v && truthy (v.getF "objects")
      && truthy ((v.getF "objects").getF "title") then
    let titleObj := ((v.getF "objects").getF "title").idx0
    if truthy titleObj && truthy (titleObj.getF "properties")
        && truthy ((titleObj.getF "properties").getF "text") then
      let text := (titleObj.getF "properties").getF "text"
      let viaLiteral : Option String :=
        if truthy ((text.getF "literal").getF "value") then
          match (text.getF "literal").getF "value" with
          | .str s =>
              let title := jsTrim s
              if title ≠ "" then some title else none
          | _ => none
        else none
      match viaLiteral with
      | some t => some t
      | none =>
          if truthy (text.getF "expr") && truthy ((text.getF "expr").getF "Literal") then
            match ((text.getF "expr").getF "Literal").getF "Value" with
            | .str s =>
                let title := jsTrim (stripApos s)
                if title ≠ "" && title ≠ "Title" then some title else none
            | _ => none
          else none
    else none
  else none

/-- Final block of `getVisualDisplayName`: a synthesized name from the
canonical type and the first 8 characters of the raw `name` id. -/
def synthesizedName (visualData : Json) : String :=
  let visualType := getVisualType visualData
  let shortId :=
    if truthy (visualData.getF "name") then
      match visualData.getF "name" with
      | .str s => String.mk (s.data.take 8)
      | _ => "unknown"
    else "unknown"
  if visualType ≠ "unknown" then
    visualType ++ " (" ++ shortId ++ ")"
  else
    "Visual (" ++ shortId ++ ")"

/-- `getVisualDisplayName`: the four source blocks tried in order, each
returning as soon as it resolves, with the synthesized name as the final
fallback. -/
def getVisualDisplayName (visualData : Json) : String :=
  match containerTitleResolve visualData with
  | some t => t
  | none =>
      match svObjectsTitleResolve visualData with
      | some t => t
      | none =>
          match textboxTitleResolve visualData with
          | some t => t
          | none =>
              match directObjectsTitleResolve visualData with
              | some t => t
              | none => synthesizedName visualData

/-- `Math.round(v || 0)` on the integer-modelled numbers (rounding is the
identity; a truthy non-numeric operand, NaN in JavaScript, is out of the
modelled scope and mapped to 0). -/
def jsRound0 (j : Json) : Json :=
  match jsOr j (.num 0) with
  | .num n => .num n
  | _ => .num 0

/-- `getVisualPosition`: the rounded x/y/width/height record, or `null`
when the document has no `position`. -/
def getVisualPosition (visualData : Json) : Json :=
  if truthy (visualData.getF "position") then
    let p := visualData.getF "position"
    .obj (jobj
      [("x", jsRound0 (p.getF "x")),
       ("y", jsRound0 (p.getF "y")),
       ("width", jsRound0 (p.getF "width")),
       ("height", jsRound0 (p.getF "height"))])
  else .null

/-- Index into a numeric-keyed lookup-table object literal; `undefined`
for unmapped or non-numeric codes. -/
def aggIndex (table : List (Int × String)) (j : Json) : Json :=
  match j with
  | .num n =>
      match table.lookup n with
      | some s => .str s
      | none => .undefined
  | _ => .undefined

/-- The aggregation-code table inlined in `parseProjectionField`. -/
def aggregationTypesProjection : List (Int × String) :=
  [(0, "Sum"), (1, "Average"), (2, "Count (Distinct)"),
   (3, "Min"), (4, "Max"), (5, "Count")]

/-- The (textually identical) aggregation-code table inlined in
`parseFieldFromSelect`. -/
def aggregationTypesSelect : List (Int × String) :=
  [(0, "Sum"), (1, "Average"), (2, "Count (Distinct)"),
   (3, "Min"), (4, "Max"), (5, "Count")]

/-- `parseProjectionField`: classify a query-state projection as measure /
dimension / aggregation; `null` when the field descriptor matches none. -/
def parseProjectionField (roleKey : String) (projection : Json) : Json :=
  if truthy (projection.getF "field") then
    let field := projection.getF "field"
    if truthy (field.getF "Measure") then
      let m := field.getF "Measure"
      .obj (jobj
        [("type", .str "measure"),
         ("role", .str roleKey),
         ("name", jsOr (projection.getF "queryRef") (m.getF "Property")),
         ("table", jsOr (((m.getF "Expression").getF "SourceRef").getF "Entity")
            (.str "Unknown Table")),
         ("field", m.getF "Property")])
    else if truthy (field.getF "Column") then
      let c := field.getF "Column"
      .obj (jobj
        [("type", .str "dimension"),
         ("role", .str roleKey),
         ("name", jsOr (projection.getF "queryRef") (c.getF "Property")),
         ("table", jsOr (((c.getF "Expression").getF "SourceRef").getF "Entity")
            (.str "Unknown Table")),
         ("field", c.getF "Property")])
    else if truthy (field.getF "Aggregation") then
      let a := field.getF "Aggregation"
      .obj (jobj
        [("type", .str "measure"),
         ("role", .str roleKey),
         ("name", jsOr (projection.getF "queryRef") (.str "Aggregated Field")),
         ("aggregation", jsOr (aggIndex aggregationTypesProjection (a.getF "Function"))
            (.str "Unknown")),
         ("table", jsOr (((((a.getF "Expression").getF "Column").getF "Expression").getF
            "SourceRef").getF "Entity") (.str "Unknown Table")),
         ("field", jsOr (((a.getF "Expression").getF "Column").getF "Property")
            (.str "Unknown Field"))])
    else .null
  else .null

/-- `extractTableName`: source table from a direct `SourceRef` or from an
aggregation-over-column expression one level deeper. -/
def extractTableName (expression : Json) : Json :=
  if truthy expression && truthy (expression.getF "SourceRef") then
    jsOr ((expression.getF "SourceRef").getF "Entity") (.str "Unknown Table")
  else if truthy expression && truthy (expression.getF "Column")
      && truthy ((expression.getF "Column").getF "Expression")
      && truthy (((expression.getF "Column").getF "Expression").getF "SourceRef") then
    jsOr ((((expression.getF "Column").getF "Expression").getF "SourceRef").getF "Entity")
      (.str "Unknown Table")
  else .str "Unknown Table"

/-- `extractFieldName`: property name of a column expression. -/
def extractFieldName (expression : Json) : Json :=
  if truthy expression && truthy (expression.getF "Column") then
    jsOr ((expression.getF "Column").getF "Property") (.str "Unknown Field")
  else .str "Unknown Field"

/-- `parseFieldFromSelect`: classify a legacy prototype-query `Select`
entry. -/
def parseFieldFromSelect (select : Json) : Json :=
  if truthy (select.getF "Measure") then
    let m := select.getF "Measure"
    .obj (jobj
      [("type", .str "measure"),
       ("name", jsOr (select.getF "Name") (.str "Unnamed Measure")),
       ("table", extractTableName (m.getF "Expression")),
       ("field", m.getF "Property")])
  else if truthy (select.getF "Column") then
    let c := select.getF "Column"
    .obj (jobj
      [("type", .str "dimension"),
       ("name", jsOr (select.getF "Name") (.str "Unnamed Column")),
       ("table", extractTableName (c.getF "Expression")),
       ("field", c.getF "Property")])
  else if truthy (select.getF "Aggregation") then
    let a := select.getF "Aggregation"
    .obj (jobj
      [("type", .str "measure"),
       ("name", jsOr (select.getF "Name") (.str "Aggregated Field")),
       ("aggregation", jsOr (aggIndex aggregationTypesSelect (a.getF "Function"))
          (.str "Unknown")),
       ("table", extractTableName (a.getF "Expression")),
       ("field", extractFieldName (a.getF "Expression"))])
  else .null

/-- `parseFieldFromDataRole`: classify a legacy dataRoles item by the
presence of `queryRef.Measure`. -/
def parseFieldFromDataRole (roleName : String) (item : Json) : Json :=
  if truthy (item.getF "queryRef") then
    let q := item.getF "queryRef"
    .obj (jobj
      [("role", .str roleName),
       ("name", jsOr (q.getF "Name") (.str "Unnamed Field")),
       ("type", .str (if truthy (q.getF "Measure") then "measure" else "dimension"))])
  else .null

/-- Fields of an object value as a list (`Object.keys` iteration). -/
def objFieldsList (j : Json) : List (String × Json) :=
  match j with
  | .obj fs => fs.toList
  | _ => []

/-- `getVisualFields`: the three-way field extraction (query-state
projections, prototype-query Select list, dataRoles list), grouped into
measures / dimensions / values. -/
def getVisualFields (visualData : Json) : Json :=
  let v := visualData.getF "visual"
  let fromProjections : List Json :=
    if truthy v && truthy (v.getF "query") && truthy ((v.getF "query").getF "queryState") then
      (objFieldsList ((v.getF "query").getF "queryState")).flatMap (fun rk =>
        if truthy (rk.2.getF "projections") && (rk.2.getF "projections").isArr then
          ((rk.2.getF "projections").asList).filterMap (fun projection =>
            let fieldInfo := parseProjectionField rk.1 projection
            if truthy fieldInfo then some fieldInfo else none)
        else [])
    else []
  let fromSelect : List Json :=
    if truthy v && truthy (v.getF "singleVisual")
        && truthy ((v.getF "singleVisual").getF "prototypeQuery")
        && truthy (((v.getF "singleVisual").getF "prototypeQuery").getF "Select") then
      ((((v.getF "singleVisual").getF "prototypeQuery").getF "Select").asList).filterMap
        (fun select =>
          let fieldInfo := parseFieldFromSelect select
          if truthy fieldInfo then some fieldInfo else none)
    else []
  let fromDataRoles : List Json :=
    if truthy v && truthy (v.getF "singleVisual")
        && truthy ((v.getF "singleVisual").getF "dataRoles") then
      (objFieldsList ((v.getF "singleVisual").getF "dataRoles")).flatMap (fun rk =>
        if rk.2.isArr then
          (rk.2.asList).filterMap (fun item =>
            let fieldInfo := parseFieldFromDataRole rk.1 item
            if truthy fieldInfo then some fieldInfo else none)
        else [])
    else []
  let isMeasure : Json → Bool := fun f => f.getF "type" = .str "measure"
  let classified := fromProjections ++ fromSelect
  .obj (jobj
    [("measures", .arr (jarr (classified.filter isMeasure))),
     ("dimensions", .arr (jarr (classified.filter (fun f => !isMeasure f)))),
     ("values", .arr (jarr fromDataRoles))])

/-- The filter-type display-name table of `getFilterTypeName`. -/
def filterTypeMapping : List (String × String) :=
  [("Categorical", "List Filter"),
   ("Range", "Range Filter"),
   ("Advanced", "Advanced Filter"),
   ("TopN", "Top N Filter"),
   ("RelativeDate", "Relative Date Filter")]

/-- `getFilterTypeName`: mapped display name, unmapped values passing
through unchanged. -/
def getFilterTypeName (t : Json) : Json :=
  match t with
  | .str s =>
      match filterTypeMapping.lookup s with
      | some m => .str m
      | none => .str s
  | other => other

/-- `getFilterFieldName`: `table.column` rendering of the filter target. -/
def getFilterFieldName (field : Json) : Json :=
  if truthy field && truthy (field.getF "Column") then
    .str (jsToString (extractTableName ((field.getF "Column").getF "Expression"))
      ++ "." ++ jsToString ((field.getF "Column").getF "Property"))
  else if truthy field && truthy (field.getF "Measure") then
    .str (jsToString (extractTableName ((field.getF "Measure").getF "Expression"))
      ++ "." ++ jsToString ((field.getF "Measure").getF "Property"))
  else .str "Unknown Field"

/-- `parseFilter`: the summarized filter record. -/
def parseFilter (filter : Json) : Json :=
  .obj (jobj
    [("name", jsOr (filter.getF "displayName")
        (jsOr (filter.getF "name") (.str "Unnamed Filter"))),
     ("type", getFilterTypeName (filter.getF "type")),
     ("field", getFilterFieldName (filter.getF "field")),
     ("isHidden", jsOr (filter.getF "isHiddenInViewMode") (.bool false)),
     ("isLocked", jsOr (filter.getF "isLockedInViewMode") (.bool false))])

/-- `getVisualFilters`: the filters of `filterConfig.filters`. -/
def getVisualFilters (visualData : Json) : Json :=
  if truthy (visualData.getF "filterConfig")
      && truthy ((visualData.getF "filterConfig").getF "filters") then
    .arr (jarr ((((visualData.getF "filterConfig").getF "filters").asList).filterMap
      (fun filter =>
        let filterInfo := parseFilter filter
        if truthy filterInfo then some filterInfo else none)))
  else .arr .nil

/-- `extractPageFilters`: page-level `filterConfig.filters`. -/
def extractPageFilters (pageData : Json) : Json :=
  if truthy (pageData.getF "filterConfig")
      && truthy ((pageData.getF "filterConfig").getF "filters") then
    .arr (jarr ((((pageData.getF "filterConfig").getF "filters").asList).filterMap
      (fun filter =>
        let filterInfo := parseFilter filter
        if truthy filterInfo then some filterInfo else none)))
  else .arr .nil

/-- The per-visual record assembled by `extractVisualInfo`. -/
structure VisualInfo where
  id : String
  name : String
  type : String
  position : Json
  fields : Json
  filters : Json
  isHidden : Json
  deriving DecidableEq, Repr

/-- `extractVisualInfo`. -/
def extractVisualInfo (visualName : String) (visualData : Json) : VisualInfo :=
  { id := visualName
    name := getVisualDisplayName visualData
    type := getVisualType visualData
    position := getVisualPosition visualData
    fields := getVisualFields visualData
    filters := getVisualFilters visualData
    isHidden := jsOr (visualData.getF "isHidden") (.bool false) }

/-- `parsePageVisuals`: collect the parsed visual documents of a page in
file order and sort them with `a.name.localeCompare(b.name)`.  The
locale collator is an external capability of the JavaScript runtime and
is passed in as the boolean relation `lcLe` ("compares less-or-equal");
`Array.prototype.sort` with a consistent comparator is modelled by the
stable `List.insertionSort`. -/
def parsePageVisuals (lcLe : String → String → Bool) (files : List GFile)
    (pageName : String) : List VisualInfo :=
  let visualFiles := files.filter (fun f =>
    strIncludes f.relativePath ("/pages/" ++ pageName ++ "/visuals/")
      && sEndsWith f.relativePath "/visual.json")
  let collected := visualFiles.filterMap (fun f =>
    let visualData := jfParse f.content
    if truthy visualData then
      some (extractVisualInfo (extractVisualName f.relativePath) visualData)
    else none)
  List.insertionSort (fun a b => lcLe a.name b.name = true) collected

/-- The per-page record assembled by `parsePages`. -/
structure PageInfo where
  id : String
  name : Json
  width : Json
  height : Json
  displayOption : Json
  visibility : Json
  type : Json
  filters : Json
  visuals : List VisualInfo
  deriving DecidableEq, Repr

/-- `parsePages`: page-list metadata map, then one `PageInfo` per parsed
page document, keyed by the path-derived page name. -/
def parsePages (lcLe : String → String → Bool) (files : List GFile) :
    List (String × PageInfo) :=
  let pagesMetadata : List (String × Json) :=
    match findFileG files "definition/pages/pages.json" with
    | some pf =>
        let pagesData := jfParse pf.content
        if truthy pagesData && truthy (pagesData.getF "pages") then
          ((pagesData.getF "pages").asList).foldl
            (fun pm page => mapSet pm (jsToString (page.getF "name")) page) []
        else []
    | none => []
  let pageFiles := files.filter (fun f =>
    strIncludes f.relativePath "/pages/" && sEndsWith f.relativePath "/page.json")
  pageFiles.foldl (fun pages pageFile =>
    let pageName := extractPageName pageFile.relativePath
    let pageData := jfParse pageFile.content
    if truthy pageData then
      let metaName : Json :=
        match mapGet pagesMetadata pageName with
        | some p => p.getF "displayName"
        | none => .undefined
      mapSet pages pageName
        { id := pageName
          name := jsOr (pageData.getF "displayName") (jsOr metaName (.str pageName))
          width := pageData.getF "width"
          height := pageData.getF "height"
          displayOption := pageData.getF "displayOption"
          visibility := pageData.getF "visibility"
          type := pageData.getF "type"
          filters := extractPageFilters pageData
          visuals := parsePageVisuals lcLe files pageName }
    else pages) []

end PBIRReportGenerator

namespace PBIRParserEnhanced

/-! Embedding of the schema-aware `PBIRParserEnhanced` class
(`src/unnamed/part_000`); the members the claims exercise. -/

/-- The `schemas.aggregationFunctions` lookup table (codes 0 through 8). -/
def aggregationFunctions : List (Int × String) :=
  [(0, "Sum"), (1, "Average"), (2, "DistinctCount"), (3, "Min"), (4, "Max"),
   (5, "Count"), (6, "Median"), (7, "StandardDeviation"), (8, "Variance")]

/-- The `schemas.comparisonKinds` lookup table. -/
def comparisonKinds : List (Int × String) :=
  [(0, "Equal"), (1, "GreaterThan"), (2, "GreaterThanOrEqual"),
   (3, "LessThan"), (4, "LessThanOrEqual")]

/-- `extractLiteralValue`: `null` for a falsy wrapper; the `literal.value`
shape, then the `solid.color` shape; any other truthy wrapper is returned
unchanged. -/
def extractLiteralValue (property : Json) : Json :=
  if !truthy property then .null
  else if truthy (property.getF "literal") then
    (property.getF "literal").getF "value"
  else if truthy (property.getF "solid") then
    (property.getF "solid").getF "color"
  else property

/-- `validatePosition`: `null` for a falsy position; otherwise x/y/z/
height/width defaulted to 0 with `tabOrder` and `angle` passed through. -/
def validatePosition (position : Json) : Json :=
  if !truthy position then .null
  else
    .obj (jobj
      [("x", jsOr (position.getF "x") (.num 0)),
       ("y", jsOr (position.getF "y") (.num 0)),
       ("z", jsOr (position.getF "z") (.num 0)),
       ("height", jsOr (position.getF "height") (.num 0)),
       ("width", jsOr (position.getF "width") (.num 0)),
       ("tabOrder", position.getF "tabOrder"),
       ("angle", position.getF "angle")])

/-- `extractLayoutEnhanced`: an all-zero layout record, overwritten from a
truthy `position` with `|| 0` defaults for the numeric fields and
pass-through `tabOrder` / `angle`. -/
def extractLayoutEnhanced (visualData : Json) : Json :=
  let pos := visualData.getF "position"
  if truthy pos then
    .obj (jobj
      [("x", jsOr (pos.getF "x") (.num 0)),
       ("y", jsOr (pos.getF "y") (.num 0)),
       ("width", jsOr (pos.getF "width") (.num 0)),
       ("height", jsOr (pos.getF "height") (.num 0)),
       ("z", jsOr (pos.getF "z") (.num 0)),
       ("tabOrder", pos.getF "tabOrder"),
       ("angle", pos.getF "angle")])
  else
    .obj (jobj
      [("x", .num 0), ("y", .num 0), ("width", .num 0), ("height", .num 0),
       ("z", .num 0), ("tabOrder", .null), ("angle", .null)])

/-- `parseSelectExpression`: classify a prototype-query `Select` entry as
measure / dimension / hierarchy / aggregation, resolving the aggregation
code through `schemas.aggregationFunctions` with an `Unknown` default. -/
def parseSelectExpression (select : Json) : Json :=
  let name := select.getF "Name"
  if truthy (select.getF "Measure") then
    let m := select.getF "Measure"
    .obj (jobj
      [("type", .str "measure"),
       ("name", name),
       ("expression", m.getF "Expression"),
       ("property", m.getF "Property"),
       ("source", jsOr ((m.getF "Expression").getF "SourceRef")
          ((m.getF "Expression").getF "Source"))])
  else if truthy (select.getF "Column") then
    let c := select.getF "Column"
    .obj (jobj
      [("type", .str "dimension"),
       ("name", name),
       ("expression", c.getF "Expression"),
       ("property", c.getF "Property"),
       ("source", jsOr ((c.getF "Expression").getF "SourceRef")
          ((c.getF "Expression").getF "Source"))])
  else if truthy (select.getF "Hierarchy") then
    let h := select.getF "Hierarchy"
    .obj (jobj
      [("type", .str "hierarchy"),
       ("name", name),
       ("hierarchy", h.getF "Hierarchy"),
       ("expression", h.getF "Expression")])
  else if truthy (select.getF "Aggregation") then
    let a := select.getF "Aggregation"
    let aggregationFunction : String :=
      match a.getF "Function" with
      | .num n => (aggregationFunctions.lookup n).getD "Unknown"
      | _ => "Unknown"
    .obj (jobj
      [("type", .str "measure"),
       ("name", name),
       ("aggregation", .str aggregationFunction),
       ("expression", a.getF "Expression")])
  else .null

end PBIRParserEnhanced

namespace PBIRParser

/-! Embedding of the `PBIRParser` class (`src/unnamed/part_001`).  The one
call of the JavaScript built-in `JSON.parse` on an embedded string (inside
`formatFilterConfig`) is an external capability and is passed in as the
parameter `jp : String → Option Json` (`none` models a parse error caught
by the surrounding `try`). -/

/-- The `getAggregationFunction` lookup table (note: distinct from the
tables of the other classes; here 2 maps to `Min`). -/
def aggregationFunctionsTable : List (Int × String) :=
  [(0, "Sum"), (1, "Average"), (2, "Min"), (3, "Max"),
   (4, "Count"), (5, "CountDistinct")]

/-- `getAggregationFunction`: table lookup with an `Unknown` default. -/
def getAggregationFunction (funcId : Json) : String :=
  match funcId with
  | .num n => (aggregationFunctionsTable.lookup n).getD "Unknown"
  | _ => "Unknown"

/-- `extractFieldName`: column property, rendered aggregation over a
column, a plain string, or `Unknown Field`. -/
def extractFieldName (field : Json) : Json :=
  if truthy field && truthy (field.getF "Column")
      && truthy ((field.getF "Column").getF "Property") then
    (field.getF "Column").getF "Property"
  else if truthy field && truthy (field.getF "Aggregation")
      && truthy ((field.getF "Aggregation").getF "Expression")
      && truthy (((field.getF "Aggregation").getF "Expression").getF "Column") then
    let aggFunction := getAggregationFunction ((field.getF "Aggregation").getF "Function")
    .str (aggFunction ++ "("
      ++ jsToString ((((field.getF "Aggregation").getF "Expression").getF "Column").getF
            "Property")
      ++ ")")
  else
    match field with
    | .str s => .str s
    | _ => .str "Unknown Field"

/-- `extractTopNValue`: the `From[0].Expression.Subquery.Query.Top` chain,
or the placeholder `N`. -/
def extractTopNValue (filterObj : Json) : Json :=
  if truthy filterObj && truthy (filterObj.getF "From")
      && truthy (filterObj.getF "From").idx0
      && truthy ((filterObj.getF "From").idx0.getF "Expression")
      && truthy (((filterObj.getF "From").idx0.getF "Expression").getF "Subquery")
      && truthy ((((filterObj.getF "From").idx0.getF "Expression").getF "Subquery").getF
          "Query")
      && truthy (((((filterObj.getF "From").idx0.getF "Expression").getF "Subquery").getF
          "Query").getF "Top") then
    ((((filterObj.getF "From").idx0.getF "Expression").getF "Subquery").getF "Query").getF
      "Top"
  else .str "N"

/-- `formatExpression`: strings pass through; column and aggregation
expressions render as templates; literal wrappers return their raw
`Value`; anything else is `JSON.stringify`-ed. -/
def formatExpression (expression : Json) : Json :=
  match expression with
  | .str s => .str s
  | e =>
      if truthy e && truthy (e.getF "Column") then
        .str (jsToString ((e.getF "Column").getF "Expression") ++ "."
          ++ jsToString ((e.getF "Column").getF "Property"))
      else if truthy e && truthy (e.getF "Aggregation") then
        .str (jsToString ((e.getF "Aggregation").getF "Expression") ++ " ("
          ++ jsToString ((e.getF "Aggregation").getF "Function") ++ ")")
      else if truthy e && truthy (e.getF "Literal") then
        (e.getF "Literal").getF "Value"
      else jsonStringifyJ e

/-- `formatFilterObject` with explicit recursion fuel: `In` renders the
joined formatted expressions, `Between` its two bounds, `And`/`Or` the
parenthesized joined renderings of their array of children, `Not` its
child, `Comparison` its kind and right operand, and any other shape a
verbatim JSON dump.  The fuel only bounds the recursion depth; the
wrapper `formatFilterObject` supplies `Json.size`, which dominates the
depth of every chain of recursive calls, so the fuel-exhausted case is
unreachable. -/
def formatFilterObjectF : Nat → Json → String
  | 0, j => stringifyStr j
  | fuel + 1, j =>
      if truthy (j.getF "In") && truthy ((j.getF "In").getF "Expressions") then
        let values := (((j.getF "In").getF "Expressions").asList).map formatExpression
        "IN (" ++ jsJoin ", " values ++ ")"
      else if truthy (j.getF "Between") then
        "BETWEEN " ++ jsToString (formatExpression ((j.getF "Between").getF "LowerBound"))
          ++ " AND "
          ++ jsToString (formatExpression ((j.getF "Between").getF "UpperBound"))
      else if truthy (j.getF "And") then
        let conditions := ((j.getF "And").asList).map (formatFilterObjectF fuel)
        "(" ++ String.intercalate " AND " conditions ++ ")"
      else if truthy (j.getF "Or") then
        let conditions := ((j.getF "Or").asList).map (formatFilterObjectF fuel)
        "(" ++ String.intercalate " OR " conditions ++ ")"
      else if truthy (j.getF "Not") then
        "NOT (" ++ formatFilterObjectF fuel (j.getF "Not") ++ ")"
      else if truthy (j.getF "Comparison") then
        jsToString ((j.getF "Comparison").getF "ComparisonKind") ++ " "
          ++ jsToString (formatExpression ((j.getF "Comparison").getF "Right"))
      else stringifyStr j

/-- `formatFilterObject`. -/
def formatFilterObject (filterObj : Json) : String :=
  formatFilterObjectF filterObj.size filterObj

/-- `parseFilterExpression`: TopN/BottomN, Advanced and Basic filters to
their summary records; expression filters through `formatExpression` /
`formatFilterObject`; anything else to an `Unknown Filter` dump. -/
def parseFilterExpression (filter : Json) : Json :=
  if filter.getF "type" = .str "TopN" || filter.getF "type" = .str "BottomN" then
    let field := extractFieldName (filter.getF "field")
    let topValue := extractTopNValue (filter.getF "filter")
    let tyStr := jsToString (filter.getF "type")
    .obj (jobj
      [("type", .str (tyStr ++ " Filter")),
       ("description", .str (tyStr ++ " " ++ jsToString topValue)),
       ("field", field),
       ("expression", .str ("Show " ++ jsToLower tyStr ++ " " ++ jsToString topValue
          ++ " by " ++ jsToString field))])
  else if filter.getF "type" = .str "Advanced" then
    let field := extractFieldName (filter.getF "field")
    .obj (jobj
      [("type", .str "Advanced Filter"),
       ("field", field),
       ("description", .str ("Advanced filter on " ++ jsToString field)),
       ("expression", .str ("Advanced filtering applied to " ++ jsToString field))])
  else if filter.getF "type" = .str "Basic" then
    let field := extractFieldName (filter.getF "field")
    .obj (jobj
      [("type", .str "Basic Filter"),
       ("field", field),
       ("description", .str ("Basic filter on " ++ jsToString field)),
       ("expression", .str ("Basic filtering applied to " ++ jsToString field))])
  else if truthy (filter.getF "expression") && truthy (filter.getF "filter") then
    .obj (jobj
      [("type", .str "Expression Filter"),
       ("expression", formatExpression (filter.getF "expression")),
       ("filter", .str (formatFilterObject (filter.getF "filter"))),
       ("raw", filter)])
  else if truthy (filter.getF "expression") then
    .obj (jobj
      [("type", .str "Expression Filter"),
       ("expression", formatExpression (filter.getF "expression")),
       ("raw", filter)])
  else
    .obj (jobj
      [("type", .str "Unknown Filter"),
       ("description", jsonStringifyJ filter),
       ("raw", filter)])

/-- `formatFilterConfig`: an array of filters joins their (object)
summaries; an `expression` formats it; a raw string splits on semicolons
and `JSON.parse`s each piece (via the external `jp`); anything else is
stringified. -/
def formatFilterConfig (jp : String → Option Json) (config : Json) : Json :=
  if truthy (config.getF "filters") && (config.getF "filters").isArr then
    .str (jsJoin "; " (((config.getF "filters").asList).map parseFilterExpression))
  else if truthy (config.getF "expression") then
    formatExpression (config.getF "expression")
  else
    match config with
    | .str s =>
        let filterStrings := ((splitOnChar ';' s).map jsTrim).filter (fun t => t ≠ "")
        .arr (jarr (filterStrings.map (fun filterStr =>
          match jp filterStr with
          | some filterObj => parseFilterExpression filterObj
          | none =>
              .obj (jobj
                [("type", .str "String Filter"),
                 ("description", .str filterStr),
                 ("expression", .str filterStr)]))))
    | other => jsonStringifyJ other

/-- `parseFilterConfig`: array results pass through; otherwise wrap as a
`Visual Filter Config` record. -/
def parseFilterConfig (jp : String → Option Json) (filterConfig : Json) : Json :=
  let formatted := formatFilterConfig jp filterConfig
  if formatted.isArr then formatted
  else
    .obj (jobj
      [("type", .str "Visual Filter Config"),
       ("description", formatted),
       ("raw", filterConfig)])

/-- `isFilterProperty`: case-insensitive containment of one of the
filter-related property-name fragments. -/
def isFilterProperty (propKey : String) : Bool :=
  ["filter", "where", "condition", "filterType", "advanced", "basic"].any
    (fun fp => strIncludes (jsToLower propKey) (jsToLower fp))

/-- `formatPropertyValue`. -/
def formatPropertyValue (prop : Json) : Json :=
  if truthy (prop.getF "literal") then (prop.getF "literal").getF "value"
  else if truthy (prop.getF "expression") then formatExpression (prop.getF "expression")
  else jsonStringifyJ prop

/-- Fields of an object value as a list (`Object.keys` iteration). -/
def objFieldsList (j : Json) : List (String × Json) :=
  match j with
  | .obj fs => fs.toList
  | _ => []

/-- `extractVisualProperties`: visual type from its three locations, title
from the legacy objects (unguarded `.literal.value` in the source), the
root-level name, and the `unknown` type default. -/
def extractVisualProperties (visualData : Json) : Json :=
  let v := visualData.getF "visual"
  let sv := v.getF "singleVisual"
  let p0 : JObj := .nil
  let p1 : JObj :=
    if truthy v && truthy (v.getF "visualType") then
      p0.setF "type" (v.getF "visualType")
    else if truthy v && truthy sv && truthy (sv.getF "visualType") then
      p0.setF "type" (sv.getF "visualType")
    else if truthy v && truthy sv && truthy (sv.getF "objects")
        && truthy ((sv.getF "objects").getF "general") then
      let general := (sv.getF "objects").getF "general"
      if truthy general && truthy general.idx0 && truthy (general.idx0.getF "properties")
          && truthy ((general.idx0.getF "properties").getF "visualType") then
        p0.setF "type"
          ((((general.idx0.getF "properties").getF "visualType").getF "literal").getF
            "value")
      else p0
    else p0
  let p2 : JObj :=
    if truthy v && truthy sv && truthy (sv.getF "objects")
        && truthy ((sv.getF "objects").getF "title") then
      let titleObj := (sv.getF "objects").getF "title"
      if truthy titleObj && truthy titleObj.idx0 && truthy (titleObj.idx0.getF "properties")
          && truthy ((titleObj.idx0.getF "properties").getF "text") then
        p1.setF "title"
          ((((titleObj.idx0.getF "properties").getF "text").getF "literal").getF "value")
      else p1
    else p1
  let p3 : JObj :=
    if truthy (visualData.getF "name") then p2.setF "name" (visualData.getF "name") else p2
  let p4 : JObj :=
    if !truthy (p3.lookupF "type") then p3.setF "type" (.str "unknown") else p3
  .obj p4

/-- `Object.assign(target, source)` for object targets (the only case the
source exercises); non-object targets are out of the modelled scope. -/
def assignObj (target source : Json) : Json :=
  match target with
  | .obj fs => .obj ((objFieldsList source).foldl (fun acc kv => acc.setF kv.1 kv.2) fs)
  | other => other

/-- `extractFields`: data roles (merged with `vcObjects` roles), and the
prototype-query Select measures/dimensions (note the `column` key for
measures and `property` key for dimensions, as in the source). -/
def extractFields (visualData : Json) : Json :=
  let v := visualData.getF "visual"
  let sv := v.getF "singleVisual"
  let inSv := truthy v && truthy sv
  let dataRoles0 : Json :=
    if inSv && truthy (sv.getF "dataRoles") then sv.getF "dataRoles" else .obj .nil
  let dataRoles : Json :=
    if inSv && truthy (sv.getF "vcObjects") then
      (objFieldsList (sv.getF "vcObjects")).foldl
        (fun acc kv =>
          if truthy kv.2 && truthy (kv.2.getF "dataRoles") then
            assignObj acc (kv.2.getF "dataRoles")
          else acc)
        dataRoles0
    else dataRoles0
  let selects : List Json :=
    if inSv && truthy (sv.getF "prototypeQuery")
        && truthy ((sv.getF "prototypeQuery").getF "Select") then
      ((sv.getF "prototypeQuery").getF "Select").asList
    else []
  let measures := selects.filterMap (fun select =>
    if truthy (select.getF "Measure") then
      some (Json.obj (jobj
        [("name", select.getF "Name"),
         ("expression", (select.getF "Measure").getF "Expression"),
         ("column", (select.getF "Measure").getF "Property")]))
    else none)
  let dimensions := selects.filterMap (fun select =>
    if truthy (select.getF "Measure") then none
    else if truthy (select.getF "Column") then
      some (Json.obj (jobj
        [("name", select.getF "Name"),
         ("expression", (select.getF "Column").getF "Expression"),
         ("property", (select.getF "Column").getF "Property")]))
    else none)
  .obj (jobj
    [("dataRoles", dataRoles),
     ("measures", .arr (jarr measures)),
     ("dimensions", .arr (jarr dimensions))])

/-- `extractFilters`: root-level filters, prototype-query `Where` entries,
filter-flavored visual object properties, and the container-level
`filterConfig`. -/
def extractFilters (jp : String → Option Json) (visualData : Json) : Json :=
  let fromRoot : List Json :=
    if truthy (visualData.getF "filters") then
      ((visualData.getF "filters").asList).map parseFilterExpression
    else []
  let v := visualData.getF "visual"
  let sv := v.getF "singleVisual"
  let inSv := truthy v && truthy sv
  let fromWhere : List Json :=
    if inSv && truthy (sv.getF "prototypeQuery")
        && truthy ((sv.getF "prototypeQuery").getF "Where") then
      (((sv.getF "prototypeQuery").getF "Where").asList).map (fun whereClause =>
        Json.obj (jobj
          [("type", .str "Query Filter"),
           ("condition", whereClause.getF "Condition"),
           ("expression", formatExpression (whereClause.getF "Expression")),
           ("raw", whereClause)]))
    else []
  let fromObjects : List Json :=
    if inSv && truthy (sv.getF "objects") then
      (objFieldsList (sv.getF "objects")).flatMap (fun ok =>
        if ok.2.isArr then
          (ok.2.asList).flatMap (fun o =>
            if truthy (o.getF "properties") then
              (objFieldsList (o.getF "properties")).filterMap (fun pk =>
                if isFilterProperty pk.1 then
                  some (Json.obj (jobj
                    [("type", .str "Visual Property Filter"),
                     ("object", .str ok.1),
                     ("property", .str pk.1),
                     ("value", formatPropertyValue pk.2),
                     ("raw", pk.2)]))
                else none)
            else [])
        else [])
    else []
  let fromConfig : List Json :=
    if truthy (visualData.getF "filterConfig") then
      let filterConfigInfo := parseFilterConfig jp (visualData.getF "filterConfig")
      if filterConfigInfo.isArr then filterConfigInfo.asList else [filterConfigInfo]
    else []
  .arr (jarr (fromRoot ++ fromWhere ++ fromObjects ++ fromConfig))

/-- `extractLayout`: position-based layout with `|| 0` defaults, then the
direct root-level fallbacks guarded by `!== undefined`. -/
def extractLayout (visualData : Json) : Json :=
  let pos := visualData.getF "position"
  let l0 : JObj :=
    if truthy pos then
      jobj
        [("x", jsOr (pos.getF "x") (.num 0)),
         ("y", jsOr (pos.getF "y") (.num 0)),
         ("width", jsOr (pos.getF "width") (.num 0)),
         ("height", jsOr (pos.getF "height") (.num 0)),
         ("zIndex", jsOr (pos.getF "z") (.num 0))]
    else
      jobj
        [("x", .num 0), ("y", .num 0), ("width", .num 0), ("height", .num 0),
         ("zIndex", .num 0)]
  let l1 := if visualData.getF "x" = Json.undefined then l0 else l0.setF "x" (visualData.getF "x")
  let l2 := if visualData.getF "y" = Json.undefined then l1 else l1.setF "y" (visualData.getF "y")
  let l3 :=
    if visualData.getF "width" = Json.undefined then l2
    else l2.setF "width" (visualData.getF "width")
  let l4 :=
    if visualData.getF "height" = Json.undefined then l3
    else l3.setF "height" (visualData.getF "height")
  let l5 :=
    if visualData.getF "z" = Json.undefined then l4 else l4.setF "zIndex" (visualData.getF "z")
  .obj l5

/-- `extractFormatting`. -/
def extractFormatting (visualData : Json) : Json :=
  let v := visualData.getF "visual"
  let sv := v.getF "singleVisual"
  let haveObjects := truthy v && truthy sv && truthy (sv.getF "objects")
  let objects := sv.getF "objects"
  let background : Json :=
    if haveObjects && truthy (objects.getF "background") then
      .obj (jobj
        [("color", ((((objects.getF "background").idx0.getF "properties").getF "color").getF
            "solid").getF "color"),
         ("transparency", ((((objects.getF "background").idx0.getF "properties").getF
            "transparency").getF "literal").getF "value")])
    else .null
  let border : Json :=
    if haveObjects && truthy (objects.getF "border") then
      .obj (jobj
        [("color", ((((objects.getF "border").idx0.getF "properties").getF "color").getF
            "solid").getF "color"),
         ("show", ((((objects.getF "border").idx0.getF "properties").getF "show").getF
            "literal").getF "value")])
    else .null
  let colors : List Json :=
    if haveObjects && truthy (objects.getF "dataColors") then
      ((objects.getF "dataColors").asList).filterMap (fun colorObj =>
        if truthy (colorObj.getF "properties")
            && truthy ((colorObj.getF "properties").getF "fill") then
          some ((((colorObj.getF "properties").getF "fill").getF "solid").getF "color")
        else none)
    else []
  let font : Json :=
    if haveObjects && truthy (objects.getF "title") && truthy (objects.getF "title").idx0
        && truthy ((objects.getF "title").idx0.getF "properties") then
      let titleProps := (objects.getF "title").idx0.getF "properties"
      .obj (jobj
        [("fontFamily", ((titleProps.getF "fontFamily").getF "literal").getF "value"),
         ("fontSize", ((titleProps.getF "fontSize").getF "literal").getF "value"),
         ("fontColor", ((titleProps.getF "fontColor").getF "solid").getF "color")])
    else .null
  .obj (jobj
    [("background", background), ("border", border), ("font", font),
     ("colors", .arr (jarr colors))])

/-- `processVisualData`: the spread of the raw document extended with the
mobile override and the extracted summaries. -/
def processVisualData (jp : String → Option Json) (visualData mobileData : Json) : Json :=
  .obj (((((((visualData.spreadFields.setF "mobile" mobileData).setF
    "properties" (extractVisualProperties visualData)).setF
    "fields" (extractFields visualData)).setF
    "filters" (extractFilters jp visualData)).setF
    "layout" (extractLayout visualData)).setF
    "formatting" (extractFormatting visualData)))

/-- The visual-file loop body of `parsePageVisuals`, with the visuals map
as accumulator (JavaScript `Map.set` semantics). -/
def pvLoop (jp : String → Option Json) (fileMap : List GFile) (pageName : String) :
    List GFile → List (String × Json) → List (String × Json)
  | [], vs => vs
  | f :: rest, vs =>
      if strIncludes f.relativePath ("/pages/" ++ pageName ++ "/visuals/")
          && sEndsWith f.relativePath "/visual.json" then
        let visualName := extractVisualName f.relativePath
        let visualData := jfParse f.content
        let mobilePath := replaceOnce f.relativePath "/visual.json" "/mobile.json"
        let mobileData :=
          match fileMap.find? (fun g => g.relativePath = mobilePath) with
          | some g => jfParse g.content
          | none => Json.null
        pvLoop jp fileMap pageName rest
          (mapSet vs visualName (processVisualData jp visualData mobileData))
      else pvLoop jp fileMap pageName rest vs

/-- `parsePageVisuals` (the returned `Object.fromEntries` object keeps the
association-list form). -/
def parsePageVisualsL (jp : String → Option Json) (fileMap : List GFile)
    (pageName : String) : List (String × Json) :=
  pvLoop jp fileMap pageName fileMap []

/-- The page-file loop body of `parsePages`, with the pages map as
accumulator. -/
def pgLoop (jp : String → Option Json) (fileMap : List GFile) :
    List GFile → List (String × Json) → List (String × Json)
  | [], pages => pages
  | f :: rest, pages =>
      if strIncludes f.relativePath "/pages/" && sEndsWith f.relativePath "/page.json" then
        let pageName := extractPageName f.relativePath
        let pageData := jfParse f.content
        let pageVisuals := parsePageVisualsL jp fileMap pageName
        let entry := Json.obj ((pageData.spreadFields.setF "name" (.str pageName)).setF
          "visuals" (.obj (jobj pageVisuals)))
        pgLoop jp fileMap rest (mapSet pages pageName entry)
      else pgLoop jp fileMap rest pages

/-- `parsePages` (the `pagesList` read from `pages.json` in the source is
assigned and never used, so it does not appear in the result). -/
def parsePages (jp : String → Option Json) (fileMap : List GFile) :
    List (String × Json) :=
  pgLoop jp fileMap fileMap []

/-- `parseReportStructure`: report root, then the version document merged
as `{...reportData, version}`, then the extensions document merged as
`{...reportData, extensions}`. -/
def parseReportStructure (fileMap : List GFile) : Json :=
  let r0 : Json :=
    match findFileG fileMap "definition/report.json" with
    | some f => jfParse f.content
    | none => .null
  let r1 : Json :=
    match findFileG fileMap "definition/version.json" with
    | some f => spreadSet r0 "version" (jfParse f.content)
    | none => r0
  match findFileG fileMap "definition/reportExtensions.json" with
  | some f => spreadSet r1 "extensions" (jfParse f.content)
  | none => r1

end PBIRParser

namespace EnhancedPBIRParser

/-! Embedding of the `EnhancedPBIRParser` class and its `SchemaValidator`
collaborator (`src/cli-parser.js`). -/

/-- The single schema file shipped in `json-schemas/`
(`visualContainerMobileState_schema.json`), reduced to its `required`
list — the only part `basicValidate` ever consults. -/
def mobileStateSchema : Json :=
  .obj (jobj [("required", .arr (jarr [.str "$schema", .str "position"]))])

/-- The schema map built by `SchemaValidator.loadSchemas` from the
`json-schemas` directory (which contains exactly one schema file). -/
def validatorSchemas : List (String × Json) :=
  [("visualContainerMobileState", mobileStateSchema)]

/-- Whether `requiredField in data` holds (the `in` operator on the parsed
document; documents are objects in every exercised case). -/
def hasKeyJ (data : Json) (key : String) : Bool :=
  match data with
  | .obj fs => fs.hasKey key
  | _ => false

/-- `SchemaValidator.basicValidate`: one error per declared-required
top-level key missing from the document. -/
def basicValidate (data schema : Json) : Bool × List String :=
  let errors : List String :=
    if truthy (schema.getF "required") then
      ((schema.getF "required").asList).filterMap (fun rf =>
        let key := jsToString rf
        if hasKeyJ data key then none
        else some ("Missing required field: " ++ key))
    else []
  (errors.length = 0, errors)

/-- `SchemaValidator.validate`. -/
def validate (data : Json) (schemaName : String) : Bool × List String :=
  match validatorSchemas.lookup schemaName with
  | none => (false, ["Schema " ++ schemaName ++ " not found"])
  | some schema => basicValidate data schema

/-- `parseJsonFileWithValidation`: returns the parsed data (or `null` on a
parse error, recording an error), plus the error and warning messages it
pushes.  The error message carries the exception text in the source;
only its `Error parsing <path>` prefix is modelled. -/
def parseJsonFileWithValidation (file : GFile) (schemaName : String) :
    Json × List String × List String :=
  match file.content with
  | none => (.null, ["Error parsing " ++ file.relativePath], [])
  | some data =>
      if schemaName ≠ "" then
        let v := validate data schemaName
        (data, [],
          if v.1 then []
          else ["Schema validation failed for " ++ file.relativePath ++ " ("
            ++ schemaName ++ "): " ++ String.intercalate ", " v.2])
      else (data, [], [])

/-- `extractVisualProperties` (CLI variant). -/
def extractVisualProperties (visualData : Json) : Json :=
  let v := visualData.getF "visual"
  let sv := v.getF "singleVisual"
  let p0 : JObj := .nil
  let p1 : JObj :=
    if truthy v && truthy (v.getF "visualType") then p0.setF "type" (v.getF "visualType")
    else p0
  let p2 : JObj :=
    if truthy (visualData.getF "name") then p1.setF "name" (visualData.getF "name") else p1
  let p3 : JObj :=
    if truthy v && truthy sv then
      let pA :=
        if truthy (sv.getF "visualType") then p2.setF "type" (sv.getF "visualType") else p2
      if truthy (sv.getF "objects") && truthy ((sv.getF "objects").getF "title") then
        let titleObj := (sv.getF "objects").getF "title"
        if truthy titleObj && truthy titleObj.idx0
            && truthy (titleObj.idx0.getF "properties")
            && truthy ((titleObj.idx0.getF "properties").getF "text") then
          pA.setF "title"
            ((((titleObj.idx0.getF "properties").getF "text").getF "literal").getF "value")
        else pA
      else pA
    else p2
  let p4 : JObj :=
    if !truthy (p3.lookupF "type") then p3.setF "type" (.str "unknown") else p3
  .obj p4

/-- `extractFields` (CLI variant). -/
def extractFields (visualData : Json) : Json :=
  let v := visualData.getF "visual"
  let sv := v.getF "singleVisual"
  let inSv := truthy v && truthy sv
  let dataRoles : Json :=
    if inSv && truthy (sv.getF "dataRoles") then sv.getF "dataRoles" else .obj .nil
  let selects : List Json :=
    if inSv && truthy (sv.getF "prototypeQuery")
        && truthy ((sv.getF "prototypeQuery").getF "Select") then
      ((sv.getF "prototypeQuery").getF "Select").asList
    else []
  let measures := selects.filterMap (fun select =>
    if truthy (select.getF "Measure") then
      some (Json.obj (jobj
        [("name", select.getF "Name"),
         ("expression", (select.getF "Measure").getF "Expression"),
         ("property", (select.getF "Measure").getF "Property")]))
    else none)
  let dimensions := selects.filterMap (fun select =>
    if truthy (select.getF "Measure") then none
    else if truthy (select.getF "Column") then
      some (Json.obj (jobj
        [("name", select.getF "Name"),
         ("expression", (select.getF "Column").getF "Expression"),
         ("property", (select.getF "Column").getF "Property")]))
    else none)
  .obj (jobj
    [("dataRoles", dataRoles),
     ("measures", .arr (jarr measures)),
     ("dimensions", .arr (jarr dimensions))])

/-- `parseFilterFromSchema`. -/
def parseFilterFromSchema (filter : Json) : Json :=
  .obj (jobj
    [("type", jsOr (filter.getF "type") (.str "Unknown")),
     ("name", filter.getF "name"),
     ("displayName", filter.getF "displayName"),
     ("field", filter.getF "field"),
     ("filter", filter.getF "filter"),
     ("restatement", filter.getF "restatement"),
     ("howCreated", filter.getF "howCreated"),
     ("isHiddenInViewMode", filter.getF "isHiddenInViewMode"),
     ("isLockedInViewMode", filter.getF "isLockedInViewMode")])

/-- `extractFilters` (CLI variant). -/
def extractFilters (visualData : Json) : Json :=
  let fromConfig : List Json :=
    if truthy (visualData.getF "filterConfig")
        && truthy ((visualData.getF "filterConfig").getF "filters") then
      (((visualData.getF "filterConfig").getF "filters").asList).map parseFilterFromSchema
    else []
  let v := visualData.getF "visual"
  let sv := v.getF "singleVisual"
  let fromWhere : List Json :=
    if truthy v && truthy sv && truthy (sv.getF "prototypeQuery")
        && truthy ((sv.getF "prototypeQuery").getF "Where") then
      (((sv.getF "prototypeQuery").getF "Where").asList).map (fun whereClause =>
        Json.obj (jobj
          [("type", .str "Query Filter"),
           ("condition", whereClause.getF "Condition"),
           ("target", whereClause.getF "Target"),
           ("raw", whereClause)]))
    else []
  .arr (jarr (fromConfig ++ fromWhere))

/-- `extractLayout` (CLI variant): every field defaulted with `|| 0`. -/
def extractLayout (visualData : Json) : Json :=
  let pos := visualData.getF "position"
  if truthy pos then
    .obj (jobj
      [("x", jsOr (pos.getF "x") (.num 0)),
       ("y", jsOr (pos.getF "y") (.num 0)),
       ("width", jsOr (pos.getF "width") (.num 0)),
       ("height", jsOr (pos.getF "height") (.num 0)),
       ("z", jsOr (pos.getF "z") (.num 0)),
       ("tabOrder", jsOr (pos.getF "tabOrder") (.num 0))])
  else
    .obj (jobj
      [("x", .num 0), ("y", .num 0), ("width", .num 0), ("height", .num 0),
       ("z", .num 0), ("tabOrder", .num 0)])

/-- `extractFormatting` (CLI variant). -/
def extractFormatting (visualData : Json) : Json :=
  let v := visualData.getF "visual"
  let sv := v.getF "singleVisual"
  let haveObjects := truthy v && truthy sv && truthy (sv.getF "objects")
  let objects := sv.getF "objects"
  let background : Json :=
    if haveObjects && truthy (objects.getF "background") then
      (objects.getF "background").idx0.getF "properties"
    else .null
  let border : Json :=
    if haveObjects && truthy (objects.getF "border") then
      (objects.getF "border").idx0.getF "properties"
    else .null
  let colors : List Json :=
    if haveObjects && truthy (objects.getF "dataColors") then
      ((objects.getF "dataColors").asList).filterMap (fun colorObj =>
        if truthy (colorObj.getF "properties")
            && truthy ((colorObj.getF "properties").getF "fill") then
          some ((colorObj.getF "properties").getF "fill")
        else none)
    else []
  .obj (jobj
    [("background", background), ("border", border), ("font", .null),
     ("colors", .arr (jarr colors))])

/-- `processVisualData` (CLI variant). -/
def processVisualData (visualData mobileData : Json) : Json :=
  .obj ((((((visualData.spreadFields.setF "mobile" mobileData).setF
    "properties" (extractVisualProperties visualData)).setF
    "fields" (extractFields visualData)).setF
    "filters" (extractFilters visualData)).setF
    "layout" (extractLayout visualData)).setF
    "formatting" (extractFormatting visualData))

/-- The predicate selecting the visual documents of a page. -/
def isVisualFileOf (pageName : String) (f : GFile) : Bool :=
  strIncludes f.relativePath ("/pages/" ++ pageName ++ "/visuals/")
    && sEndsWith f.relativePath "/visual.json"

/-- The predicate selecting page documents. -/
def isPageFile (f : GFile) : Bool :=
  strIncludes f.relativePath "/pages/" && sEndsWith f.relativePath "/page.json"

/-- The visual-file loop of `parsePageVisuals`: accumulates the local
visuals map and returns the global-visuals additions and the pushed
errors and warnings. -/
def pvLoop (files : List GFile) (pageName : String) :
    List GFile → List (String × Json) →
    List (String × Json) × List (String × Json) × List String × List String
  | [], vs => (vs, [], [], [])
  | f :: rest, vs =>
      let visualName := extractVisualName f.relativePath
      let pr := parseJsonFileWithValidation f "visualContainer"
      if truthy pr.1 then
        let mobilePath := replaceOnce f.relativePath "/visual.json" "/mobile.json"
        let mob : Json × List String × List String :=
          match files.find? (fun g => g.relativePath = mobilePath) with
          | some mf => parseJsonFileWithValidation mf "visualContainerMobileState"
          | none => (.null, [], [])
        let processed := processVisualData pr.1 mob.1
        let globalEntry := Json.obj ((processed.spreadFields.setF
          "pageName" (.str pageName)).setF "visualName" (.str visualName))
        let r := pvLoop files pageName rest (mapSet vs visualName processed)
        (r.1, (pageName ++ ":" ++ visualName, globalEntry) :: r.2.1,
          pr.2.1 ++ mob.2.1 ++ r.2.2.1, pr.2.2 ++ mob.2.2 ++ r.2.2.2)
      else
        let r := pvLoop files pageName rest vs
        (r.1, r.2.1, pr.2.1 ++ r.2.2.1, pr.2.2 ++ r.2.2.2)

/-- `parsePageVisuals` (CLI variant): loop over the filtered visual files
of the page. -/
def parsePageVisuals (files : List GFile) (pageName : String) :
    List (String × Json) × List (String × Json) × List String × List String :=
  pvLoop files pageName (files.filter (isVisualFileOf pageName)) []

/-- The page-file loop of `parsePages`. -/
def pgLoop (files : List GFile) :
    List GFile → List (String × Json) →
    List (String × Json) × List (String × Json) × List String × List String
  | [], pages => (pages, [], [], [])
  | pf :: rest, pages =>
      let pageName := extractPageName pf.relativePath
      let pr := parseJsonFileWithValidation pf "page"
      if truthy pr.1 then
        let pv := parsePageVisuals files pageName
        let entry := Json.obj ((pr.1.spreadFields.setF "name" (.str pageName)).setF
          "visuals" (.obj (jobj pv.1)))
        let r := pgLoop files rest (mapSet pages pageName entry)
        (r.1, pv.2.1 ++ r.2.1, pr.2.1 ++ pv.2.2.1 ++ r.2.2.1,
          pr.2.2 ++ pv.2.2.2 ++ r.2.2.2)
      else
        let r := pgLoop files rest pages
        (r.1, r.2.1, pr.2.1 ++ r.2.2.1, pr.2.2 ++ r.2.2.2)

/-- `parsePages` (CLI variant): the (unused) page-list metadata parse for
its side-channel messages, then the loop over the page files. -/
def parsePages (files : List GFile) :
    List (String × Json) × List (String × Json) × List String × List String :=
  let meta : List String × List String :=
    match findFileG files "definition/pages/pages.json" with
    | some pf =>
        let pr := parseJsonFileWithValidation pf "pagesMetadata"
        (pr.2.1, pr.2.2)
    | none => ([], [])
  let r := pgLoop files (files.filter isPageFile) []
  (r.1, r.2.1, meta.1 ++ r.2.2.1, meta.2 ++ r.2.2.2)

/-- The bookmark-file loop of `parseBookmarks`. -/
def bkLoop : List GFile → List (String × Json) →
    List (String × Json) × List String × List String
  | [], bks => (bks, [], [])
  | f :: rest, bks =>
      let pr := parseJsonFileWithValidation f "bookmark"
      if truthy pr.1 then
        let r := bkLoop rest (mapSet bks (extractBookmarkName f.relativePath) pr.1)
        (r.1, pr.2.1 ++ r.2.1, pr.2.2 ++ r.2.2)
      else
        let r := bkLoop rest bks
        (r.1, pr.2.1 ++ r.2.1, pr.2.2 ++ r.2.2)

/-- `parseBookmarks` (CLI variant): only runs when `bookmarks.json` is
present. -/
def parseBookmarks (files : List GFile) :
    List (String × Json) × List String × List String :=
  match findFileG files "definition/bookmarks/bookmarks.json" with
  | none => ([], [], [])
  | some bf =>
      let pr := parseJsonFileWithValidation bf "bookmarksMetadata"
      let bookmarkFiles := files.filter (fun f =>
        strIncludes f.relativePath "/bookmarks/"
          && sEndsWith f.relativePath ".bookmark.json")
      let r := bkLoop bookmarkFiles []
      (r.1, pr.2.1 ++ r.2.1, pr.2.2 ++ r.2.2)

/-- `parseReportStructure` (CLI variant): report root (a missing root
recorded as the distinguished warning), then version and extensions each
merged only when both the accumulated report and the new document are
truthy. -/
def parseReportStructure (files : List GFile) : Json × List String × List String :=
  let s1 : Json × List String × List String :=
    match findFileG files "definition/report.json" with
    | some f => parseJsonFileWithValidation f "report"
    | none => (.null, [], ["No main report.json found"])
  let s2 : Json × List String × List String :=
    match findFileG files "definition/version.json" with
    | some f =>
        let pr := parseJsonFileWithValidation f "versionMetadata"
        (if truthy s1.1 && truthy pr.1 then spreadSet s1.1 "version" pr.1 else s1.1,
          s1.2.1 ++ pr.2.1, s1.2.2 ++ pr.2.2)
    | none => s1
  match findFileG files "definition/reportExtensions.json" with
  | some f =>
      let pr := parseJsonFileWithValidation f "reportExtension"
      (if truthy s2.1 && truthy pr.1 then spreadSet s2.1 "extensions" pr.1 else s2.1,
        s2.2.1 ++ pr.2.1, s2.2.2 ++ pr.2.2)
  | none => s2

/-- The result record of `parseDirectory`. -/
structure CliResult where
  report : Json
  pages : List (String × Json)
  visuals : List (String × Json)
  bookmarks : List (String × Json)
  errors : List String
  warnings : List String
  deriving DecidableEq, Repr

/-- Apply a list of `Map.set` operations in order. -/
def mapSetMany {α : Type} (m : List (String × α)) (ds : List (String × α)) :
    List (String × α) :=
  ds.foldl (fun acc kv => mapSet acc kv.1 kv.2) m

/-- `parseDirectory`: report structure, pages (with their visuals), then
bookmarks; errors and warnings concatenate in phase order. -/
def parseDirectory (files : List GFile) : CliResult :=
  let rp := parseReportStructure files
  let pg := parsePages files
  let bk := parseBookmarks files
  { report := rp.1
    pages := pg.1
    visuals := mapSetMany [] pg.2.1
    bookmarks := bk.1
    errors := rp.2.1 ++ pg.2.2.1 ++ bk.2.1
    warnings := rp.2.2 ++ pg.2.2.2 ++ bk.2.2 }

end EnhancedPBIRParser

/-! Definitions supporting the claim statements: the claim-worded literal
resolver used for the C3 refinement comparison, and the concrete
documents used by witnesses and counterexamples. -/

/-- The literal resolver as the specification words it (spec section 4.2 /
claim C3): try `literal.value`, then `solid.color`, then
`expr.Literal.Value` with surrounding quote characters stripped, return
the first value found, and return `null` when none of the three shapes
matches.  This definition follows the claim text and is compared against
the source-derived `PBIRParserEnhanced.extractLiteralValue`. -/
def extractLiteralValueClaim (property : Json) : Json :=
  if ((property.getF "literal").getF "value") ≠ Json.undefined then
    (property.getF "literal").getF "value"
  else if ((property.getF "solid").getF "color") ≠ Json.undefined then
    (property.getF "solid").getF "color"
  else if (((property.getF "expr").getF "Literal").getF "Value") ≠ Json.undefined then
    match ((property.getF "expr").getF "Literal").getF "Value" with
    | .str s => .str (stripApos s)
    | other => other
  else .null

/-- The apostrophe, as a one-character string. -/
def aposS : String := String.mk [aposC]

/-- A property wrapper carrying only the expression-literal shape, with a
quoted value X. -/
def exprOnlyWrapper : Json :=
  .obj (jobj [("expr", .obj (jobj [("Literal",
    .obj (jobj [("Value", .str (aposS ++ "X" ++ aposS))]))]))])

/-- A property wrapper matching none of the three shapes. -/
def shapelessWrapper : Json :=
  .obj (jobj [("a", .num 1)])

/-- A property wrapper carrying the solid-color shape. -/
def solidWrapper : Json :=
  .obj (jobj [("solid", .obj (jobj [("color", .str "#fff")]))])

/-- A visual document carrying both a visual-container title override
(quoted literal Revenue Trend) and a legacy single-visual objects title
(Chart1). -/
def revenueTrendDoc : Json :=
  .obj (jobj
    [("visualContainerObjects", .obj (jobj [("title", .arr (jarr
        [.obj (jobj [("properties", .obj (jobj [("text", .obj (jobj [("expr",
           .obj (jobj [("Literal", .obj (jobj
             [("Value", .str (aposS ++ "Revenue Trend" ++ aposS))]))]))]))]))])]))])),
     ("visual", .obj (jobj [("singleVisual", .obj (jobj [("objects",
        .obj (jobj [("title", .arr (jarr
          [.obj (jobj [("properties", .obj (jobj [("text", .obj (jobj [("literal",
             .obj (jobj [("value", .str "Chart1")]))]))]))])]))]))]))]))])

/-- The filter node of claim C4: an `And` whose children are an `In` over
the literal expressions A, B and a `Comparison` of kind `GreaterThan`
with right operand the literal 10. -/
def c4AndNode : Json :=
  .obj (jobj [("And", .arr (jarr
    [.obj (jobj [("In", .obj (jobj [("Expressions", .arr (jarr
        [.obj (jobj [("Literal", .obj (jobj [("Value", .str "A")]))]),
         .obj (jobj [("Literal", .obj (jobj [("Value", .str "B")]))])]))]))]),
     .obj (jobj [("Comparison", .obj (jobj
        [("ComparisonKind", .str "GreaterThan"),
         ("Right", .obj (jobj [("Literal", .obj (jobj [("Value", .num 10)]))]))]))])]))])

/-- A query-state projection whose field is an aggregation with the given
function code. -/
def projectionWithAggCode (c : Int) : Json :=
  .obj (jobj [("field", .obj (jobj [("Aggregation",
    .obj (jobj [("Function", .num c)]))]))])

/-- A prototype-query Select entry that is an aggregation with the given
function code. -/
def selectWithAggCode (c : Int) : Json :=
  .obj (jobj [("Aggregation", .obj (jobj [("Function", .num c)]))])

/-- A visual document whose position has width -5 and height 10. -/
def negWidthDoc : Json :=
  .obj (jobj [("position", .obj (jobj
    [("width", .num (-5)), ("height", .num 10)]))])

/-- The 30-character string aaa…a. -/
def thirtyAs : String := String.mk (List.replicate 30 'a')

/-- Two page documents whose paths fail the page-name capturing pattern
(an extra path segment between the captured id and `page.json`), with
distinguishable bodies. -/
def unknownPagesFileMap : List GFile :=
  [⟨"a/pages/x/y/page.json", some (.obj (jobj [("marker", .num 1)]))⟩,
   ⟨"b/pages/q/r/page.json", some (.obj (jobj [("marker", .num 2)]))⟩]

/-- A report root whose own top-level `version` field competes with the
separate version document. -/
def versionClashFileMap : List GFile :=
  [⟨"definition/report.json", some (.obj (jobj [("version", .str "1.0"),
      ("theme", .str "city")]))⟩,
   ⟨"definition/version.json", some (.obj (jobj [("major", .num 2)]))⟩]

/-- A document set with one page and one visual but no report root. -/
def noRootFileMap : List GFile :=
  [⟨"definition/pages/pages.json", some (.obj (jobj [("pages", .arr .nil)]))⟩,
   ⟨"definition/pages/p1/page.json", some (.obj (jobj [("displayName", .str "Page 1")]))⟩,
   ⟨"definition/pages/p1/visuals/v1/visual.json", some (.obj (jobj
      [("name", .str "v1full")]))⟩]

/-! Shared helper lemmas about the map and object primitives. -/

lemma mapSet_hasKey_self {α : Type} (m : List (String × α)) (k : String) (v : α) :
    mapHasKey (mapSet m k v) k = true := by
  unfold mapSet mapHasKey
  split
  · rename_i h
    rw [List.any_eq_true] at h ⊢
    obtain ⟨p, hp, he⟩ := h
    refine ⟨(k, v), List.mem_map.mpr ⟨p, hp, ?_⟩, by simp⟩
    simp only [decide_eq_true_eq] at he
    simp [he]
  · rw [List.any_eq_true]
    exact ⟨(k, v), by simp, by simp⟩

lemma mapSet_hasKey_mono {α : Type} (m : List (String × α)) (k k2 : String) (v : α)
    (h : mapHasKey m k = true) : mapHasKey (mapSet m k2 v) k = true := by
  unfold mapSet
  unfold mapHasKey at h ⊢
  rw [List.any_eq_true] at h
  obtain ⟨p, hp, he⟩ := h
  simp only [decide_eq_true_eq] at he
  split
  · rw [List.any_eq_true]
    by_cases hk : p.1 = k2
    · refine ⟨(k2, v), List.mem_map.mpr ⟨p, hp, by simp [hk]⟩, ?_⟩
      simp [← hk, he]
    · exact ⟨p, List.mem_map.mpr ⟨p, hp, by simp [hk]⟩, by simp [he]⟩
  · rw [List.any_eq_true]
    exact ⟨p, List.mem_append_left _ hp, by simp [he]⟩

lemma mapSet_keys_nodup {α : Type} (m : List (String × α)) (k : String) (v : α)
    (h : (m.map Prod.fst).Nodup) : ((mapSet m k v).map Prod.fst).Nodup := by
  unfold mapSet
  split
  · have hkeys : (m.map (fun p => if p.1 = k then (k, v) else p)).map Prod.fst
        = m.map Prod.fst := by
      rw [List.map_map]
      apply List.map_congr_left
      intro p _
      by_cases hk : p.1 = k
      · simp [hk]
      · simp [hk]
    rw [hkeys]
    exact h
  · rename_i hany
    rw [List.map_append]
    simp only [List.map_cons, List.map_nil]
    rw [List.nodup_append]
    refine ⟨h, List.nodup_singleton k, ?_⟩
    intro a ha hb
    simp only [List.mem_singleton] at hb
    subst hb
    rw [List.mem_map] at ha
    obtain ⟨p, hp, hpk⟩ := ha
    rw [Bool.not_eq_true, List.any_eq_false] at hany
    have := hany p hp
    simp only [decide_eq_true_eq] at this
    exact this hpk

lemma mapSet_forall {α : Type} {P : String × α → Prop} {m : List (String × α)}
    {k : String} {v : α} (hm : ∀ p ∈ m, P p) (hv : P (k, v)) :
    ∀ p ∈ mapSet m k v, P p := by
  intro p hp
  unfold mapSet at hp
  split at hp
  · rw [List.mem_map] at hp
    obtain ⟨q, hq, he⟩ := hp
    by_cases hk : q.1 = k
    · simp only [hk, if_true] at he
      exact he ▸ hv
    · simp only [hk, if_false] at he
      exact he ▸ hm q hq
  · rcases List.mem_append.mp hp with hl | hr
    · exact hm p hl
    · rw [List.mem_singleton] at hr
      exact hr ▸ hv

lemma mapGet_mem {α : Type} {m : List (String × α)} {k : String} {v : α}
    (h : mapGet m k = some v) : (k, v) ∈ m := by
  unfold mapGet at h
  cases hf : m.find? (fun p => p.1 = k) with
  | none => rw [hf] at h; exact absurd h (by simp)
  | some p =>
      rw [hf] at h
      simp only [Option.some.injEq] at h
      have hmem := List.mem_of_find?_eq_some hf
      have hkey := List.find?_some hf
      simp only [decide_eq_true_eq] at hkey
      have : p = (k, v) := by
        cases p
        simp only at hkey h
        simp [hkey, h]
      exact this ▸ hmem

lemma lookupF_replaceKey_ne (key k : String) (v : Json) (h : k ≠ key) :
    ∀ fs : JObj, (fs.replaceKey key v).lookupF k = fs.lookupF k
  | .nil => rfl
  | .cons k2 w t => by
      unfold JObj.replaceKey
      by_cases h2 : k2 = key
      · simp only [h2, if_true]
        unfold JObj.lookupF
        rw [if_neg (fun he : key = k => h he.symm), if_neg (fun he : key = k => h he.symm)]
        exact lookupF_replaceKey_ne key k v h t
      · simp only [h2, if_false]
        unfold JObj.lookupF
        by_cases h3 : k2 = k
        · simp [h3]
        · simp only [h3, if_false]
          exact lookupF_replaceKey_ne key k v h t

lemma lookupF_appendKey_ne (key k : String) (v : Json) (h : k ≠ key) :
    ∀ fs : JObj, (fs.appendKey key v).lookupF k = fs.lookupF k
  | .nil => by
      unfold JObj.appendKey JObj.lookupF
      rw [if_neg (fun he : key = k => h he.symm)]
      rfl
  | .cons k2 w t => by
      unfold JObj.appendKey JObj.lookupF
      by_cases h3 : k2 = k
      · simp [h3]
      · simp only [h3, if_false]
        exact lookupF_appendKey_ne key k v h t

lemma lookupF_setF_ne (fs : JObj) (key k : String) (v : Json) (h : k ≠ key) :
    (fs.setF key v).lookupF k = fs.lookupF k := by
  unfold JObj.setF
  split
  · exact lookupF_replaceKey_ne key k v h fs
  · exact lookupF_appendKey_ne key k v h fs

lemma getF_spreadSet_ne (base : Json) (key k : String) (v : Json) (h : k ≠ key) :
    (spreadSet base key v).getF k = base.getF k := by
  unfold spreadSet
  show (base.spreadFields.setF key v).lookupF k = base.getF k
  rw [lookupF_setF_ne _ _ _ _ h]
  cases base <;> rfl

lemma lookupF_replaceKey_self (key : String) (v : Json) :
    ∀ fs : JObj, fs.hasKey key = true → (fs.replaceKey key v).lookupF key = v
  | .nil, h => absurd h (by simp [JObj.hasKey])
  | .cons k2 w t, h => by
      unfold JObj.replaceKey
      by_cases h2 : k2 = key
      · simp [h2, JObj.lookupF]
      · simp only [h2, if_false]
        unfold JObj.lookupF
        rw [if_neg h2]
        apply lookupF_replaceKey_self key v t
        unfold JObj.hasKey at h
        simpa [h2] using h

lemma lookupF_appendKey_self (key : String) (v : Json) :
    ∀ fs : JObj, fs.hasKey key = false → (fs.appendKey key v).lookupF key = v
  | .nil, _ => by simp [JObj.appendKey, JObj.lookupF]
  | .cons k2 w t, h => by
      unfold JObj.hasKey at h
      rw [Bool.or_eq_false_iff] at h
      unfold JObj.appendKey JObj.lookupF
      rw [if_neg (by simpa using h.1)]
      exact lookupF_appendKey_self key v t h.2

lemma lookupF_setF_self (fs : JObj) (key : String) (v : Json) :
    (fs.setF key v).lookupF key = v := by
  unfold JObj.setF
  split
  · exact lookupF_replaceKey_self key v fs (by assumption)
  · rename_i h
    exact lookupF_appendKey_self key v fs (by simpa using h)

lemma getF_spreadSet_self (base : Json) (key : String) (v : Json) :
    (spreadSet base key v).getF key = v := by
  unfold spreadSet
  exact lookupF_setF_self _ _ _

/-- C2 (counterexample): a 30-character raw type string with no custom-
visual token and no table entry is NOT canonicalized to Custom Visual —
it passes through unchanged — refuting the claimed "at least 30
characters" threshold (the code requires strictly more than 30). -/
theorem claim2_counterexample :
    thirtyAs.length = 30
    ∧ strIncludes thirtyAs "CV_" = false
    ∧ PBIRReportGenerator.getVisualTypeRaw thirtyAs = thirtyAs
    ∧ PBIRReportGenerator.getVisualTypeRaw thirtyAs ≠ "Custom Visual" := by
  refine ⟨by decide, by decide, by decide, ?_⟩
  decide

/-- C2 (amended): for every raw visual-type string containing the
custom-visual infix CV_ or longer than 30 characters (strictly), type
resolution returns Custom Visual regardless of the mapping table; and
every key of the closed mapping table resolves to its exact mapped
display name. -/
theorem claim2_amended :
    (∀ s : String, strIncludes s "CV_" = true ∨ 30 < s.length →
      PBIRReportGenerator.getVisualTypeRaw s = "Custom Visual")
    ∧ ∀ p ∈ PBIRReportGenerator.typeMapping,
        PBIRReportGenerator.getVisualTypeRaw p.1 = p.2 := by
  constructor
  · intro s h
    unfold PBIRReportGenerator.getVisualTypeRaw
    rcases h with h | h
    · simp [h]
    · simp [h]
  · decide

/-- C2 (witness): the amended theorem applied to the infix string xCV_y
and the table key card. -/
theorem claim2_witness :
    PBIRReportGenerator.getVisualTypeRaw "xCV_y" = "Custom Visual"
    ∧ PBIRReportGenerator.getVisualTypeRaw "card" = "Card" :=
  ⟨claim2_amended.1 "xCV_y" (Or.inl (by decide)),
   claim2_amended.2 ("card", "Card") (by decide)⟩

/-- C3 (counterexample): on a wrapper carrying only the expression-literal
shape the resolver returns the wrapper itself — not the quote-stripped
X that the claimed third step would produce, and not null — and on a
wrapper matching no shape it returns the wrapper, not null.  The
claim-worded resolver `extractLiteralValueClaim` disagrees with the code
at both inputs. -/
theorem claim3_counterexample :
    PBIRParserEnhanced.extractLiteralValue exprOnlyWrapper = exprOnlyWrapper
    ∧ extractLiteralValueClaim exprOnlyWrapper = Json.str "X"
    ∧ PBIRParserEnhanced.extractLiteralValue exprOnlyWrapper ≠ Json.str "X"
    ∧ PBIRParserEnhanced.extractLiteralValue exprOnlyWrapper ≠ Json.null
    ∧ PBIRParserEnhanced.extractLiteralValue shapelessWrapper = shapelessWrapper
    ∧ extractLiteralValueClaim shapelessWrapper = Json.null
    ∧ PBIRParserEnhanced.extractLiteralValue shapelessWrapper ≠ Json.null := by
  refine ⟨by decide, by decide, by decide, by decide, by decide, by decide, by decide⟩

/-- C3 (amended): the literal resolver tries, in this order, the direct
literal shape (literal.value) and then the solid-color shape
(solid.color) and returns the first value found; there is no
expression-literal step, and when neither shape matches a truthy wrapper
is returned unchanged — null is returned only for an absent or falsy
wrapper. -/
theorem claim3_amended (property : Json) :
    (truthy property = false →
      PBIRParserEnhanced.extractLiteralValue property = Json.null)
    ∧ (truthy property = true → truthy (property.getF "literal") = true →
      PBIRParserEnhanced.extractLiteralValue property
        = (property.getF "literal").getF "value")
    ∧ (truthy property = true → truthy (property.getF "literal") = false →
      truthy (property.getF "solid") = true →
      PBIRParserEnhanced.extractLiteralValue property
        = (property.getF "solid").getF "color")
    ∧ (truthy property = true → truthy (property.getF "literal") = false →
      truthy (property.getF "solid") = false →
      PBIRParserEnhanced.extractLiteralValue property = property) := by
  refine ⟨?_, ?_, ?_, ?_⟩
  · intro h1
    simp [PBIRParserEnhanced.extractLiteralValue, h1]
  · intro h1 h2
    simp [PBIRParserEnhanced.extractLiteralValue, h1, h2]
  · intro h1 h2 h3
    simp [PBIRParserEnhanced.extractLiteralValue, h1, h2, h3]
  · intro h1 h2 h3
    simp [PBIRParserEnhanced.extractLiteralValue, h1, h2, h3]

/-- C3 (witness): the amended theorem applied to a solid-color wrapper
(second shape) at a concrete input. -/
theorem claim3_witness :
    PBIRParserEnhanced.extractLiteralValue solidWrapper = Json.str "#fff" :=
  (claim3_amended solidWrapper).2.2.1 (by decide) (by decide) (by decide)

/-- C4: filter rendering is deterministic (it is a function of the node),
and the And node with an In left child over the literals A, B and a
GreaterThan comparison right child with literal right operand 10 renders
exactly the string (IN (A, B) AND GreaterThan 10). -/
theorem claim4_filter_rendering :
    PBIRParser.formatFilterObject c4AndNode = "(IN (A, B) AND GreaterThan 10)" := by
  decide

/-- C6: at every aggregation-code resolution site — the projection and
Select tables of the report generator, the PBIRParser function table, and
the enhanced-parser schema table — code 0 resolves to Sum and the
unmapped code 99 resolves to Unknown; all resolvers are total functions,
so no exception is possible. -/
theorem claim6_aggregation_codes :
    ((PBIRReportGenerator.parseProjectionField "values"
        (projectionWithAggCode 0)).getF "aggregation" = Json.str "Sum")
    ∧ ((PBIRReportGenerator.parseProjectionField "values"
        (projectionWithAggCode 99)).getF "aggregation" = Json.str "Unknown")
    ∧ ((PBIRReportGenerator.parseFieldFromSelect
        (selectWithAggCode 0)).getF "aggregation" = Json.str "Sum")
    ∧ ((PBIRReportGenerator.parseFieldFromSelect
        (selectWithAggCode 99)).getF "aggregation" = Json.str "Unknown")
    ∧ PBIRParser.getAggregationFunction (Json.num 0) = "Sum"
    ∧ PBIRParser.getAggregationFunction (Json.num 99) = "Unknown"
    ∧ ((PBIRParserEnhanced.parseSelectExpression
        (selectWithAggCode 0)).getF "aggregation" = Json.str "Sum")
    ∧ ((PBIRParserEnhanced.parseSelectExpression
        (selectWithAggCode 99)).getF "aggregation" = Json.str "Unknown") := by
  refine ⟨by decide, by decide, by decide, by decide, by decide, by decide,
    by decide, by decide⟩

/-- C9 (counterexample): a visual document whose position carries width -5
yields an extracted layout with width -5 in both the enhanced parser and
the CLI parser — the claimed non-negativity of width/height does not
hold, because the extractors pass source values through without
clamping. -/
theorem claim9_counterexample :
    ((PBIRParserEnhanced.extractLayoutEnhanced negWidthDoc).getF "width"
      = Json.num (-5))
    ∧ ((EnhancedPBIRParser.extractLayout negWidthDoc).getF "width" = Json.num (-5))
    ∧ ((PBIRParserEnhanced.validatePosition (negWidthDoc.getF "position")).getF "width"
      = Json.num (-5))
    ∧ (-5 : Int) < 0 := by
  refine ⟨by decide, by decide, by decide, by decide⟩

/-- C9 (amended): in both layout extractors, the width and height of the
extracted layout record are never null, and a missing (or otherwise
falsy) source value defaults to 0; width and height are otherwise passed
through unchanged, so they are non-negative exactly when the source
document values are. -/
theorem claim9_amended (visualData : Json) :
    ((PBIRParserEnhanced.extractLayoutEnhanced visualData).getF "width" ≠ Json.null)
    ∧ ((PBIRParserEnhanced.extractLayoutEnhanced visualData).getF "height" ≠ Json.null)
    ∧ (truthy ((visualData.getF "position").getF "width") = false →
      (PBIRParserEnhanced.extractLayoutEnhanced visualData).getF "width" = Json.num 0)
    ∧ (truthy ((visualData.getF "position").getF "height") = false →
      (PBIRParserEnhanced.extractLayoutEnhanced visualData).getF "height" = Json.num 0)
    ∧ (truthy ((visualData.getF "position").getF "width") = true →
      (PBIRParserEnhanced.extractLayoutEnhanced visualData).getF "width"
        = (visualData.getF "position").getF "width")
    ∧ ((EnhancedPBIRParser.extractLayout visualData).getF "width" ≠ Json.null)
    ∧ ((EnhancedPBIRParser.extractLayout visualData).getF "height" ≠ Json.null)
    ∧ (truthy ((visualData.getF "position").getF "width") = false →
      (EnhancedPBIRParser.extractLayout visualData).getF "width" = Json.num 0)
    ∧ (truthy ((visualData.getF "position").getF "height") = false →
      (EnhancedPBIRParser.extractLayout visualData).getF "height" = Json.num 0) := by
  have hjsOr : ∀ a : Json, jsOr a (Json.num 0) ≠ Json.null := by
    intro a
    unfold jsOr
    split
    · rename_i h
      intro he
      rw [he] at h
      exact absurd h (by decide)
    · decide
  have hjsOrF : ∀ a : Json, truthy a = false → jsOr a (Json.num 0) = Json.num 0 := by
    intro a h
    unfold jsOr
    rw [h]
    rfl
  have hjsOrT : ∀ a : Json, truthy a = true → jsOr a (Json.num 0) = a := by
    intro a h
    unfold jsOr
    rw [h]
    rfl
  by_cases hp : truthy (visualData.getF "position") = true
  · constructor
    · simp only [PBIRParserEnhanced.extractLayoutEnhanced, hp, if_true]
      show jsOr ((visualData.getF "position").getF "width") (Json.num 0) ≠ Json.null
      exact hjsOr _
    refine ⟨?_, ?_, ?_, ?_, ?_, ?_, ?_, ?_⟩
    · simp only [PBIRParserEnhanced.extractLayoutEnhanced, hp, if_true]
      show jsOr ((visualData.getF "position").getF "height") (Json.num 0) ≠ Json.null
      exact hjsOr _
    · intro h
      simp only [PBIRParserEnhanced.extractLayoutEnhanced, hp, if_true]
      show jsOr ((visualData.getF "position").getF "width") (Json.num 0) = Json.num 0
      exact hjsOrF _ h
    · intro h
      simp only [PBIRParserEnhanced.extractLayoutEnhanced, hp, if_true]
      show jsOr ((visualData.getF "position").getF "height") (Json.num 0) = Json.num 0
      exact hjsOrF _ h
    · intro h
      simp only [PBIRParserEnhanced.extractLayoutEnhanced, hp, if_true]
      show jsOr ((visualData.getF "position").getF "width") (Json.num 0)
        = (visualData.getF "position").getF "width"
      exact hjsOrT _ h
    · simp only [EnhancedPBIRParser.extractLayout, hp, if_true]
      show jsOr ((visualData.getF "position").getF "width") (Json.num 0) ≠ Json.null
      exact hjsOr _
    · simp only [EnhancedPBIRParser.extractLayout, hp, if_true]
      show jsOr ((visualData.getF "position").getF "height") (Json.num 0) ≠ Json.null
      exact hjsOr _
    · intro h
      simp only [EnhancedPBIRParser.extractLayout, hp, if_true]
      show jsOr ((visualData.getF "position").getF "width") (Json.num 0) = Json.num 0
      exact hjsOrF _ h
    · intro h
      simp only [EnhancedPBIRParser.extractLayout, hp, if_true]
      show jsOr ((visualData.getF "position").getF "height") (Json.num 0) = Json.num 0
      exact hjsOrF _ h
  · rw [Bool.not_eq_true] at hp
    have hgf : ∀ k : String, (visualData.getF "position").getF k = Json.undefined := by
      intro k
      cases hv : visualData.getF "position" <;> rw [hv] at hp <;>
        simp_all [truthy, Json.getF]
    have hw : truthy ((visualData.getF "position").getF "width") = false := by
      rw [hgf]
      rfl
    simp only [PBIRParserEnhanced.extractLayoutEnhanced, EnhancedPBIRParser.extractLayout,
      hp, if_false, Bool.false_eq_true]
    refine ⟨by decide, by decide, fun _ => by decide, fun _ => by decide,
      ?_, by decide, by decide, fun _ => by decide, fun _ => by decide⟩
    intro h
    rw [hw] at h
    exact absurd h (by decide)

/-- C9 (witness): the amended theorem applied to a document with no
position at all: width and height default to 0. -/
theorem claim9_witness :
    ((PBIRParserEnhanced.extractLayoutEnhanced (Json.obj .nil)).getF "width" = Json.num 0)
    ∧ ((EnhancedPBIRParser.extractLayout (Json.obj .nil)).getF "height" = Json.num 0) :=
  ⟨(claim9_amended (Json.obj .nil)).2.2.1 (by decide),
   (claim9_amended (Json.obj .nil)).2.2.2.2.2.2.2.2 (by decide)⟩

/-- C1: for every visual document on which both the visual-container
title override and the legacy single-visual objects title resolve (each
resolver only succeeds with a non-empty, non-placeholder string), title
resolution returns the container-level value: the container block is the
first block of `getVisualDisplayName` and returns as soon as it
resolves. -/
theorem claim1_container_title_wins (visualData : Json) (s t : String)
    (hc : PBIRReportGenerator.containerTitleResolve visualData = some s)
    (_hl : PBIRReportGenerator.svObjectsTitleResolve visualData = some t) :
    PBIRReportGenerator.getVisualDisplayName visualData = s := by
  unfold PBIRReportGenerator.getVisualDisplayName
  rw [hc]

/-- C1 (witness): the claimed scenario — container title Revenue Trend
(a quoted literal) together with legacy title Chart1 resolves to
Revenue Trend. -/
theorem claim1_witness :
    PBIRReportGenerator.containerTitleResolve revenueTrendDoc = some "Revenue Trend"
    ∧ PBIRReportGenerator.svObjectsTitleResolve revenueTrendDoc = some "Chart1"
    ∧ PBIRReportGenerator.getVisualDisplayName revenueTrendDoc = "Revenue Trend" :=
  ⟨by decide, by decide,
   claim1_container_title_wins revenueTrendDoc "Revenue Trend" "Chart1"
     (by decide) (by decide)⟩

/-- C5 (counterexample): when `definition/report.json` itself carries a
top-level `version` field, merging the version document OVERWRITES it in
both parsers — the claim that a later-merged document never changes a
field already set by an earlier-merged document is false. -/
theorem claim5_counterexample :
    ((PBIRParser.parseReportStructure versionClashFileMap).getF "version"
      = Json.obj (jobj [("major", Json.num 2)]))
    ∧ ((PBIRParser.parseReportStructure versionClashFileMap).getF "version"
      ≠ Json.str "1.0")
    ∧ ((EnhancedPBIRParser.parseReportStructure versionClashFileMap).1.getF "version"
      = Json.obj (jobj [("major", Json.num 2)]))
    ∧ ((EnhancedPBIRParser.parseReportStructure versionClashFileMap).1.getF "version"
      ≠ Json.str "1.0") := by
  refine ⟨by decide, by decide, by decide, by decide⟩

/-- C5 (amended): the later-merged version and extensions documents are
attached wholesale under the two fixed keys `version` and `extensions`;
every field of the earlier-merged record other than those two keys is
unchanged by the later merges, and a pre-existing `version` field is
overwritten by the version document (in `PBIRParser` unconditionally; the
merge itself happens in both parsers whenever their guards pass). -/
theorem claim5_amended (files : List GFile) (k : String)
    (h1 : k ≠ "version") (h2 : k ≠ "extensions") :
    ((PBIRParser.parseReportStructure files).getF k
      = ((findFileG files "definition/report.json").elim Json.null
          (fun f => jfParse f.content)).getF k)
    ∧ ((EnhancedPBIRParser.parseReportStructure files).1.getF k
      = ((findFileG files "definition/report.json").elim Json.null
          (fun f => (EnhancedPBIRParser.parseJsonFileWithValidation f "report").1)).getF k)
    ∧ (∀ f, findFileG files "definition/version.json" = some f →
        (PBIRParser.parseReportStructure files).getF "version" = jfParse f.content) := by
  have hv1 : ∀ base v : Json, (spreadSet base "version" v).getF k = base.getF k :=
    fun base v => getF_spreadSet_ne base _ k v h1
  have he1 : ∀ base v : Json, (spreadSet base "extensions" v).getF k = base.getF k :=
    fun base v => getF_spreadSet_ne base _ k v h2
  refine ⟨?_, ?_, ?_⟩
  · unfold PBIRParser.parseReportStructure
    cases hr : findFileG files "definition/report.json" <;>
    cases hv : findFileG files "definition/version.json" <;>
    cases he : findFileG files "definition/reportExtensions.json" <;>
      simp only [Option.elim, hv1, he1]
  · unfold EnhancedPBIRParser.parseReportStructure
    cases hr : findFileG files "definition/report.json" <;>
    cases hv : findFileG files "definition/version.json" <;>
    cases he : findFileG files "definition/reportExtensions.json" <;>
      simp only [Option.elim] <;>
      (try split) <;> (try split) <;>
      simp only [hv1, he1]
  · intro f hf
    unfold PBIRParser.parseReportStructure
    rw [hf]
    cases he : findFileG files "definition/reportExtensions.json"
    · exact getF_spreadSet_self _ _ _
    · rw [getF_spreadSet_ne _ _ _ _ (by decide)]
      exact getF_spreadSet_self _ _ _

/-- C5 (witness): the amended theorem applied to the clashing document
set at the unrelated key `theme`, which survives both merges. -/
theorem claim5_witness :
    ((PBIRParser.parseReportStructure versionClashFileMap).getF "theme"
      = Json.str "city")
    ∧ ((PBIRParser.parseReportStructure versionClashFileMap).getF "version"
      = Json.obj (jobj [("major", Json.num 2)])) := by
  have h := claim5_amended versionClashFileMap "theme" (by decide) (by decide)
  refine ⟨?_, ?_⟩
  · rw [h.1]
    decide
  · rw [h.2.2 ⟨"definition/version.json", some (.obj (jobj [("major", .num 2)]))⟩
      (by decide)]
    decide

lemma pgLoop_keys_nodup (jp : String → Option Json) (fm : List GFile) :
    ∀ (fs : List GFile) (acc : List (String × Json)),
      (acc.map Prod.fst).Nodup → ((PBIRParser.pgLoop jp fm fs acc).map Prod.fst).Nodup
  | [], _, h => h
  | f :: rest, acc, h => by
      unfold PBIRParser.pgLoop
      split
      · exact pgLoop_keys_nodup jp fm rest _ (mapSet_keys_nodup _ _ _ h)
      · exact pgLoop_keys_nodup jp fm rest acc h

lemma pvLoop_keys_nodup (jp : String → Option Json) (fm : List GFile) (pageName : String) :
    ∀ (fs : List GFile) (acc : List (String × Json)),
      (acc.map Prod.fst).Nodup →
      ((PBIRParser.pvLoop jp fm pageName fs acc).map Prod.fst).Nodup
  | [], _, h => h
  | f :: rest, acc, h => by
      unfold PBIRParser.pvLoop
      split
      · exact pvLoop_keys_nodup jp fm pageName rest _ (mapSet_keys_nodup _ _ _ h)
      · exact pvLoop_keys_nodup jp fm pageName rest acc h

/-- C8 (counterexample): two page documents whose paths both fail the
page-name capturing pattern collapse to the single key `unknown`: the
resulting pages map has ONE entry, holding the later document (its
marker is 2) — they are not retained as distinct entries. -/
theorem claim8_counterexample :
    ((PBIRParser.parsePages (fun _ => none) unknownPagesFileMap).length = 1)
    ∧ ((PBIRParser.parsePages (fun _ => none) unknownPagesFileMap).map Prod.fst
        = ["unknown"])
    ∧ ((mapGet (PBIRParser.parsePages (fun _ => none) unknownPagesFileMap)
        "unknown").elim Json.undefined (fun v => v.getF "marker") = Json.num 2) := by
  refine ⟨by decide, by decide, by decide⟩

/-- C8 (amended): identifier extraction never fails — a path that does not
match the role capturing pattern yields the sentinel `unknown` for each
of the page, visual and bookmark roles — but two documents of the same
role whose identifiers collide (in particular both `unknown`) are NOT
retained as distinct entries: the pages and per-page visuals maps hold
at most one entry per identifier, the later document silently
overwriting the earlier. -/
theorem claim8_amended :
    (∀ path, pageNameCapture path = none → extractPageName path = "unknown")
    ∧ (∀ path, visualNameCapture path = none → extractVisualName path = "unknown")
    ∧ (∀ path, bookmarkNameCapture path = none → extractBookmarkName path = "unknown")
    ∧ (∀ (jp : String → Option Json) (fileMap : List GFile),
        ((PBIRParser.parsePages jp fileMap).map Prod.fst).Nodup)
    ∧ (∀ (jp : String → Option Json) (fileMap : List GFile) (pageName : String),
        ((PBIRParser.parsePageVisualsL jp fileMap pageName).map Prod.fst).Nodup) := by
  refine ⟨?_, ?_, ?_, ?_, ?_⟩
  · intro path h
    unfold extractPageName
    rw [h]
    rfl
  · intro path h
    unfold extractVisualName
    rw [h]
    rfl
  · intro path h
    unfold extractBookmarkName
    rw [h]
    rfl
  · intro jp fileMap
    exact pgLoop_keys_nodup jp fileMap fileMap [] (by simp)
  · intro jp fileMap pageName
    exact pvLoop_keys_nodup jp fileMap pageName fileMap [] (by simp)

/-- C8 (witness): the amended theorem applied to a non-matching path and
to the colliding two-page document set. -/
theorem claim8_witness :
    extractPageName "a/pages/x/y/page.json" = "unknown"
    ∧ ((PBIRParser.parsePages (fun _ => none) unknownPagesFileMap).map Prod.fst).Nodup :=
  ⟨claim8_amended.1 "a/pages/x/y/page.json" (by decide),
   claim8_amended.2.2.2.1 (fun _ => none) unknownPagesFileMap⟩

lemma foldl_preserve {A B : Type} {P : B → Prop} (g : List B → A → List B)
    (hg : ∀ acc f, (∀ p ∈ acc, P p) → ∀ p ∈ g acc f, P p) :
    ∀ (l : List A) (acc : List B), (∀ p ∈ acc, P p) → ∀ p ∈ l.foldl g acc, P p
  | [], _, h => h
  | f :: rest, acc, h => by
      rw [List.foldl_cons]
      exact foldl_preserve g hg rest (g acc f) (hg acc f h)

/-- C10: for every locale collation (any total, transitive comparator
`lcLe`, the external `localeCompare` capability), every file set and
every page, the visual list produced by the report generator is sorted
ascending by resolved display name under that comparator — in
particular independently of the order in which the visual files were
enumerated — both for `parsePageVisuals` directly and for every page
record produced by `parsePages`. -/
theorem claim10_visuals_sorted (lcLe : String → String → Bool)
    (htot : ∀ a b, lcLe a b = true ∨ lcLe b a = true)
    (htrans : ∀ a b c, lcLe a b = true → lcLe b c = true → lcLe a c = true)
    (files : List GFile) (pageName : String) :
    List.Sorted (fun a b : PBIRReportGenerator.VisualInfo => lcLe a.name b.name = true)
      (PBIRReportGenerator.parsePageVisuals lcLe files pageName)
    ∧ ∀ p ∈ PBIRReportGenerator.parsePages lcLe files,
        List.Sorted (fun a b : PBIRReportGenerator.VisualInfo => lcLe a.name b.name = true)
          p.2.visuals := by
  haveI : IsTotal PBIRReportGenerator.VisualInfo
      (fun a b => lcLe a.name b.name = true) := ⟨fun a b => htot a.name b.name⟩
  haveI : IsTrans PBIRReportGenerator.VisualInfo
      (fun a b => lcLe a.name b.name = true) :=
    ⟨fun a b c h1 h2 => htrans a.name b.name c.name h1 h2⟩
  have hs : ∀ pn, List.Sorted
      (fun a b : PBIRReportGenerator.VisualInfo => lcLe a.name b.name = true)
      (PBIRReportGenerator.parsePageVisuals lcLe files pn) := by
    intro pn
    unfold PBIRReportGenerator.parsePageVisuals
    exact List.sorted_insertionSort _ _
  refine ⟨hs pageName, ?_⟩
  unfold PBIRReportGenerator.parsePages
  dsimp only
  refine foldl_preserve _ ?_ _ [] (by simp)
  intro acc f hacc
  dsimp only
  split
  · exact mapSet_forall hacc (hs _)
  · exact hacc

/-- C10 (witness): the sortedness theorem applied to the canonical string
order as collation and a concrete one-visual document set. -/
theorem claim10_witness :
    List.Sorted
      (fun a b : PBIRReportGenerator.VisualInfo =>
        decide (a.name ≤ b.name) = true)
      (PBIRReportGenerator.parsePageVisuals (fun a b => decide (a ≤ b))
        noRootFileMap "p1") :=
  (claim10_visuals_sorted (fun a b => decide (a ≤ b))
    (fun a b => by
      rcases le_total a b with h | h
      · exact Or.inl (decide_eq_true h)
      · exact Or.inr (decide_eq_true h))
    (fun a b c h1 h2 =>
      decide_eq_true (le_trans (of_decide_eq_true h1) (of_decide_eq_true h2)))
    noRootFileMap "p1").1

lemma pjfv_data_of_some (f : GFile) (sn : String) (d : Json)
    (h : f.content = some d) :
    (EnhancedPBIRParser.parseJsonFileWithValidation f sn).1 = d := by
  unfold EnhancedPBIRParser.parseJsonFileWithValidation
  rw [h]
  dsimp only
  split <;> rfl

lemma pjfv_warnings_form (f : GFile) (sn : String) :
    ∀ w ∈ (EnhancedPBIRParser.parseJsonFileWithValidation f sn).2.2,
      ∃ r, w = "Schema validation failed for " ++ r := by
  unfold EnhancedPBIRParser.parseJsonFileWithValidation
  cases f.content with
  | none => intro w hw; exact absurd hw (by simp)
  | some data =>
      intro w hw
      dsimp only at hw
      split at hw
      · split at hw
        · exact absurd hw (by simp)
        · rw [List.mem_singleton] at hw
          exact ⟨_, hw⟩
      · exact absurd hw (by simp)

lemma schemaWarn_ne_root (r : String) :
    "Schema validation failed for " ++ r ≠ "No main report.json found" := by
  intro h
  have h2 : ("Schema validation failed for " ++ r).length
      = ("No main report.json found").length := by rw [h]
  rw [String.length_append] at h2
  have e1 : ("Schema validation failed for ").length = 29 := rfl
  have e2 : ("No main report.json found").length = 25 := rfl
  rw [e1, e2] at h2
  omega

lemma count_root_zero (ws : List String)
    (h : ∀ w ∈ ws, ∃ r, w = "Schema validation failed for " ++ r) :
    ws.count "No main report.json found" = 0 := by
  rw [List.count_eq_zero]
  intro hmem
  obtain ⟨r, hr⟩ := h _ hmem
  exact schemaWarn_ne_root r hr.symm

lemma pvLoop_warnings_form (files : List GFile) (pageName : String) :
    ∀ (fs : List GFile) (vs : List (String × Json)),
      ∀ w ∈ (EnhancedPBIRParser.pvLoop files pageName fs vs).2.2.2,
        ∃ r, w = "Schema validation failed for " ++ r
  | [], _, w, hw => absurd hw (by simp [EnhancedPBIRParser.pvLoop])
  | f :: rest, vs, w, hw => by
      unfold EnhancedPBIRParser.pvLoop at hw
      dsimp only at hw
      split at hw
      · dsimp only at hw
        rcases List.mem_append.mp hw with hw1 | hw2
        · rcases List.mem_append.mp hw1 with hwa | hwb
          · exact pjfv_warnings_form f "visualContainer" w hwa
          · revert hwb
            split
            · intro hwb
              exact pjfv_warnings_form _ "visualContainerMobileState" w hwb
            · intro hwb
              exact absurd hwb (by simp)
        · exact pvLoop_warnings_form files pageName rest _ w hw2
      · dsimp only at hw
        rcases List.mem_append.mp hw with hw1 | hw2
        · exact pjfv_warnings_form f "visualContainer" w hw1
        · exact pvLoop_warnings_form files pageName rest vs w hw2

lemma pgLoop_warnings_form (files : List GFile) :
    ∀ (fs : List GFile) (pages : List (String × Json)),
      ∀ w ∈ (EnhancedPBIRParser.pgLoop files fs pages).2.2.2,
        ∃ r, w = "Schema validation failed for " ++ r
  | [], _, w, hw => absurd hw (by simp [EnhancedPBIRParser.pgLoop])
  | pf :: rest, pages, w, hw => by
      unfold EnhancedPBIRParser.pgLoop at hw
      dsimp only at hw
      split at hw
      · dsimp only at hw
        rcases List.mem_append.mp hw with hw1 | hw2
        · rcases List.mem_append.mp hw1 with hwa | hwb
          · exact pjfv_warnings_form pf "page" w hwa
          · exact pvLoop_warnings_form files _ _ _ w hwb
        · exact pgLoop_warnings_form files rest _ w hw2
      · dsimp only at hw
        rcases List.mem_append.mp hw with hw1 | hw2
        · exact pjfv_warnings_form pf "page" w hw1
        · exact pgLoop_warnings_form files rest pages w hw2

lemma parsePages_warnings_form (files : List GFile) :
    ∀ w ∈ (EnhancedPBIRParser.parsePages files).2.2.2,
      ∃ r, w = "Schema validation failed for " ++ r := by
  unfold EnhancedPBIRParser.parsePages
  intro w hw
  dsimp only at hw
  rcases List.mem_append.mp hw with hw1 | hw2
  · revert hw1
    split
    · intro hw1
      exact pjfv_warnings_form _ "pagesMetadata" w hw1
    · intro hw1
      exact absurd hw1 (by simp)
  · exact pgLoop_warnings_form files _ [] w hw2

lemma bkLoop_warnings_form :
    ∀ (fs : List GFile) (bks : List (String × Json)),
      ∀ w ∈ (EnhancedPBIRParser.bkLoop fs bks).2.2,
        ∃ r, w = "Schema validation failed for " ++ r
  | [], _, w, hw => absurd hw (by simp [EnhancedPBIRParser.bkLoop])
  | f :: rest, bks, w, hw => by
      unfold EnhancedPBIRParser.bkLoop at hw
      dsimp only at hw
      split at hw
      · dsimp only at hw
        rcases List.mem_append.mp hw with hw1 | hw2
        · exact pjfv_warnings_form f "bookmark" w hw1
        · exact bkLoop_warnings_form rest _ w hw2
      · dsimp only at hw
        rcases List.mem_append.mp hw with hw1 | hw2
        · exact pjfv_warnings_form f "bookmark" w hw1
        · exact bkLoop_warnings_form rest bks w hw2

lemma parseBookmarks_warnings_form (files : List GFile) :
    ∀ w ∈ (EnhancedPBIRParser.parseBookmarks files).2.2,
      ∃ r, w = "Schema validation failed for " ++ r := by
  unfold EnhancedPBIRParser.parseBookmarks
  intro w hw
  split at hw
  · exact absurd hw (by simp)
  · dsimp only at hw
    rcases List.mem_append.mp hw with hw1 | hw2
    · exact pjfv_warnings_form _ "bookmarksMetadata" w hw1
    · exact bkLoop_warnings_form _ [] w hw2

lemma pgLoop_hasKey_mono (files : List GFile) :
    ∀ (fs : List GFile) (acc : List (String × Json)) (k : String),
      mapHasKey acc k = true →
      mapHasKey (EnhancedPBIRParser.pgLoop files fs acc).1 k = true
  | [], _, _, h => h
  | pf :: rest, acc, k, h => by
      unfold EnhancedPBIRParser.pgLoop
      dsimp only
      split
      · exact pgLoop_hasKey_mono files rest _ k (mapSet_hasKey_mono _ _ _ _ h)
      · exact pgLoop_hasKey_mono files rest acc k h

lemma pgLoop_hasKey (files : List GFile) :
    ∀ (fs : List GFile) (acc : List (String × Json)) (f : GFile), f ∈ fs →
      ∀ d, f.content = some d → truthy d = true →
      mapHasKey (EnhancedPBIRParser.pgLoop files fs acc).1
        (extractPageName f.relativePath) = true
  | [], _, f, hf, _, _, _ => absurd hf (by simp)
  | g :: rest, acc, f, hf, d, hd, ht => by
      unfold EnhancedPBIRParser.pgLoop
      dsimp only
      rcases List.mem_cons.mp hf with heq | hmem
  
      · subst heq
        rw [pjfv_data_of_some f "page" d hd, if_pos ht]
        dsimp only
        exact pgLoop_hasKey_mono files rest _ _ (mapSet_hasKey_self _ _ _)
      · split
        · dsimp only
          exact pgLoop_hasKey files rest _ f hmem d hd ht
        · exact pgLoop_hasKey files rest acc f hmem d hd ht

lemma pvLoop_hasKey_mono (files : List GFile) (pageName : String) :
    ∀ (fs : List GFile) (vs : List (String × Json)) (k : String),
      mapHasKey vs k = true →
      mapHasKey (EnhancedPBIRParser.pvLoop files pageName fs vs).1 k = true
  | [], _, _, h => h
  | f :: rest, vs, k, h => by
      unfold EnhancedPBIRParser.pvLoop
      dsimp only
      split
      · dsimp only
        exact pvLoop_hasKey_mono files pageName rest _ k (mapSet_hasKey_mono _ _ _ _ h)
      · exact pvLoop_hasKey_mono files pageName rest vs k h

lemma pvLoop_hasKey (files : List GFile) (pageName : String) :
    ∀ (fs : List GFile) (vs : List (String × Json)) (f : GFile), f ∈ fs →
      ∀ d, f.content = some d → truthy d = true →
      mapHasKey (EnhancedPBIRParser.pvLoop files pageName fs vs).1
        (extractVisualName f.relativePath) = true
  | [], _, f, hf, _, _, _ => absurd hf (by simp)
  | g :: rest, vs, f, hf, d, hd, ht => by
      unfold EnhancedPBIRParser.pvLoop
      dsimp only
      rcases List.mem_cons.mp hf with heq | hmem
      · subst heq
        rw [pjfv_data_of_some f "visualContainer" d hd, if_pos ht]
        dsimp only
        exact pvLoop_hasKey_mono files pageName rest _ _ (mapSet_hasKey_self _ _ _)
      · split
        · dsimp only
          exact pvLoop_hasKey files pageName rest _ f hmem d hd ht
        · exact pvLoop_hasKey files pageName rest vs f hmem d hd ht

lemma pvLoop_values (files : List GFile) (pageName : String) :
    ∀ (fs : List GFile) (vs : List (String × Json)),
      (∀ p ∈ vs, truthy p.2 = true) →
      ∀ p ∈ (EnhancedPBIRParser.pvLoop files pageName fs vs).1, truthy p.2 = true
  | [], _, h => h
  | f :: rest, vs, h => by
      unfold EnhancedPBIRParser.pvLoop
      dsimp only
      split
      · dsimp only
        apply pvLoop_values files pageName rest _ (mapSet_forall h ?_)
        show truthy (EnhancedPBIRParser.processVisualData _ _) = true
        unfold EnhancedPBIRParser.processVisualData
        rfl
      · exact pvLoop_values files pageName rest vs h

lemma pgLoop_entries (files : List GFile) :
    ∀ (fs : List GFile) (acc : List (String × Json)),
      (∀ p ∈ acc, p.2.getF "visuals"
        = Json.obj (jobj (EnhancedPBIRParser.parsePageVisuals files p.1).1)) →
      ∀ p ∈ (EnhancedPBIRParser.pgLoop files fs acc).1,
        p.2.getF "visuals"
          = Json.obj (jobj (EnhancedPBIRParser.parsePageVisuals files p.1).1)
  | [], _, h => h
  | pf :: rest, acc, h => by
      unfold EnhancedPBIRParser.pgLoop
      dsimp only
      split
      · apply pgLoop_entries files rest _ (mapSet_forall h ?_)
        show (Json.obj _).getF "visuals" = _
        show JObj.lookupF _ "visuals" = _
        rw [lookupF_setF_self]
      · exact pgLoop_entries files rest acc h

lemma lookupF_jobj : ∀ (m : List (String × Json)) (k : String),
    (jobj m).lookupF k = (mapGet m k).elim Json.undefined id
  | [], _ => rfl
  | (pk, pv) :: rest, k => by
      unfold jobj
      show (JObj.cons pk pv (jobj rest)).lookupF k = _
      unfold JObj.lookupF
      by_cases h : pk = k
      · rw [if_pos h]
        unfold mapGet
        rw [List.find?_cons_of_pos _ (by simp [h])]
        rfl
      · rw [if_neg h]
        unfold mapGet
        rw [List.find?_cons_of_neg _ (by simp [h])]
        exact lookupF_jobj rest k

lemma mapHasKey_mapGet {α : Type} {m : List (String × α)} {k : String}
    (h : mapHasKey m k = true) : ∃ v, mapGet m k = some v := by
  unfold mapHasKey at h
  rw [List.any_eq_true] at h
  obtain ⟨p, hp, hpk⟩ := h
  simp only [decide_eq_true_eq] at hpk
  have hsome : (m.find? (fun q => q.1 = k)).isSome :=
    List.find?_isSome.mpr ⟨p, hp, by simp [hpk]⟩
  obtain ⟨q, hq⟩ := Option.isSome_iff_exists.mp hsome
  unfold mapGet
  rw [hq]
  exact ⟨q.2, rfl⟩

lemma parseReportStructure_noRoot (files : List GFile)
    (h : findFileG files "definition/report.json" = none) :
    (EnhancedPBIRParser.parseReportStructure files).1 = Json.null
    ∧ ∃ ws, (EnhancedPBIRParser.parseReportStructure files).2.2
        = "No main report.json found" :: ws
      ∧ ∀ w ∈ ws, ∃ r, w = "Schema validation failed for " ++ r := by
  unfold EnhancedPBIRParser.parseReportStructure
  rw [h]
  have hnull : ∀ j : Json, (truthy Json.null && truthy j) = false := by
    intro j
    rfl
  cases hv : findFileG files "definition/version.json" with
  | none =>
      cases he : findFileG files "definition/reportExtensions.json" with
      | none => exact ⟨rfl, [], rfl, by simp⟩
      | some f =>
          dsimp only
          rw [hnull, if_neg (by simp)]
          refine ⟨rfl, (EnhancedPBIRParser.parseJsonFileWithValidation f
            "reportExtension").2.2, by simp, ?_⟩
          intro w hw
          exact pjfv_warnings_form f "reportExtension" w hw
  | some fv =>
      dsimp only
      rw [hnull, if_neg (by simp)]
      cases he : findFileG files "definition/reportExtensions.json" with
      | none =>
          dsimp only
          refine ⟨rfl, (EnhancedPBIRParser.parseJsonFileWithValidation fv
            "versionMetadata").2.2, by simp, ?_⟩
          intro w hw
          exact pjfv_warnings_form fv "versionMetadata" w hw
      | some fe =>
          dsimp only
          rw [hnull, if_neg (by simp)]
          refine ⟨rfl, (EnhancedPBIRParser.parseJsonFileWithValidation fv
              "versionMetadata").2.2
            ++ (EnhancedPBIRParser.parseJsonFileWithValidation fe
              "reportExtension").2.2, by simp, ?_⟩
          intro w hw
          rcases List.mem_append.mp hw with h1 | h2
          · exact pjfv_warnings_form fv "versionMetadata" w h1
          · exact pjfv_warnings_form fe "reportExtension" w h2

/-- C7: when the input document set contains no `definition/report.json`,
parsing still completes: the report is the null placeholder, exactly one
missing-root condition (`No main report.json found`) is recorded among
the warnings, and the pages collection is fully populated — every
parsing, truthy page document present yields a pages entry under its
path-derived name, and that entry's visuals object contains every
parsing, truthy visual document of the page. -/
theorem claim7_missing_root (files : List GFile)
    (hroot : ∀ f ∈ files,
      sEndsWith f.relativePath "definition/report.json" = false) :
    (EnhancedPBIRParser.parseDirectory files).report = Json.null
    ∧ (EnhancedPBIRParser.parseDirectory files).warnings.count
        "No main report.json found" = 1
    ∧ (∀ f ∈ files, EnhancedPBIRParser.isPageFile f = true →
        ∀ d, f.content = some d → truthy d = true →
        mapHasKey (EnhancedPBIRParser.parseDirectory files).pages
          (extractPageName f.relativePath) = true)
    ∧ (∀ p pj, mapGet (EnhancedPBIRParser.parseDirectory files).pages p = some pj →
        ∀ vf ∈ files, EnhancedPBIRParser.isVisualFileOf p vf = true →
        ∀ d, vf.content = some d → truthy d = true →
        truthy ((pj.getF "visuals").getF (extractVisualName vf.relativePath))
          = true) := by
  have hfind : findFileG files "definition/report.json" = none := by
    unfold findFileG
    rw [List.find?_eq_none]
    intro f hf
    simp [hroot f hf]
  obtain ⟨hnul, ws, hws, hwsform⟩ := parseReportStructure_noRoot files hfind
  have hpages : (EnhancedPBIRParser.parseDirectory files).pages
      = (EnhancedPBIRParser.pgLoop files
          (files.filter EnhancedPBIRParser.isPageFile) []).1 := rfl
  have hwarn : (EnhancedPBIRParser.parseDirectory files).warnings
      = (EnhancedPBIRParser.parseReportStructure files).2.2
        ++ ((EnhancedPBIRParser.parsePages files).2.2.2
          ++ (EnhancedPBIRParser.parseBookmarks files).2.2) := by
    show (EnhancedPBIRParser.parseReportStructure files).2.2
        ++ (EnhancedPBIRParser.parsePages files).2.2.2
        ++ (EnhancedPBIRParser.parseBookmarks files).2.2 = _
    rw [List.append_assoc]
  refine ⟨hnul, ?_, ?_, ?_⟩
  · rw [hwarn, hws]
    rw [List.count_append, List.count_cons_self]
    rw [count_root_zero ws hwsform]
    rw [List.count_append]
    rw [count_root_zero _ (parsePages_warnings_form files)]
    rw [count_root_zero _ (parseBookmarks_warnings_form files)]
  · intro f hf hpf d hd ht
    rw [hpages]
    exact pgLoop_hasKey files _ [] f (List.mem_filter.mpr ⟨hf, hpf⟩) d hd ht
  · intro p pj hget vf hvf hq d hd ht
    rw [hpages] at hget
    have hmem := mapGet_mem hget
    have hent := pgLoop_entries files (files.filter EnhancedPBIRParser.isPageFile) []
      (by simp) (p, pj) hmem
    dsimp only at hent
    rw [hent]
    show truthy ((jobj (EnhancedPBIRParser.parsePageVisuals files p).1).lookupF
      (extractVisualName vf.relativePath)) = true
    rw [lookupF_jobj]
    have hvse : (EnhancedPBIRParser.parsePageVisuals files p).1
        = (EnhancedPBIRParser.pvLoop files p
            (files.filter (EnhancedPBIRParser.isVisualFileOf p)) []).1 := rfl
    have hk : mapHasKey (EnhancedPBIRParser.parsePageVisuals files p).1
        (extractVisualName vf.relativePath) = true := by
      rw [hvse]
      exact pvLoop_hasKey files p _ [] vf (List.mem_filter.mpr ⟨hvf, hq⟩) d hd ht
    obtain ⟨v, hv⟩ := mapHasKey_mapGet hk
    rw [hv]
    show truthy v = true
    have hmemv := mapGet_mem hv
    rw [hvse] at hmemv
    exact pvLoop_values files p _ [] (by simp) _ hmemv

/-- C7 (witness): the theorem applied to a concrete document set with one
page and one visual and no report root. -/
theorem claim7_witness :
    (EnhancedPBIRParser.parseDirectory noRootFileMap).report = Json.null
    ∧ (EnhancedPBIRParser.parseDirectory noRootFileMap).warnings.count
        "No main report.json found" = 1
    ∧ mapHasKey (EnhancedPBIRParser.parseDirectory noRootFileMap).pages "p1" = true := by
  have h := claim7_missing_root noRootFileMap (by decide)
  refine ⟨h.1, h.2.1, ?_⟩
  have h3 := h.2.2.1 ⟨"definition/pages/p1/page.json",
      some (.obj (jobj [("displayName", .str "Page 1")]))⟩
    (by decide) (by decide)
    (.obj (jobj [("displayName", .str "Page 1")])) rfl (by decide)
  exact h3
